import Mathlib

/-!
Shallow embedding of the audio engine of `src/hooks/useAudio.ts`
(breathing-app repository): the audio-context manager, the one-shot tone
synthesizer (`playSound`), the soundscape scheduler
(`startBackgroundMusic` / `stopBackgroundMusic`), and the timer semantics
(`setInterval` / `setTimeout` / `clearInterval`) they rely on.

The world is a single state record: the lazily created audio context, the
store of all audio-graph nodes ever created (each with its scheduled
parameter events, start/stop times, connections, and disconnect flag), the
store of timers, the `backgroundMusicNodesRef` record, the console-error
log, and a stream of random draws standing in for `Math.random()`.

Numeric encoding: every quantity in the source is an exact decimal, so the
embedding uses integers in fixed units — times in milliseconds (0.2 s =
200), frequencies in milli-hertz (523.25 Hz = 523250), gain values in
units of 10⁻⁴ (peak gain 0.4 = 4000, the exponential-ramp floor 0.0001 =
1), and `Math.random()` draws as integer thousandths (a draw r stands for
the real r/1000 ∈ [0,1)).  Multiplying constants are scaled accordingly
(e.g. the bowl's harmonic ratios 1, 2.1, …, stored in tenths).

Scheduling model: the source is single-threaded; each exported operation
runs to completion with `context.currentTime` fixed (the `await` points in
`startBackgroundMusic` are abstracted by the caller-supplied cancellation
predicate, indexed by the number of `isCancelled()` calls made so far, and
by explicit success flags for fetch / arrayBuffer / decode). Timer
callbacks fire as separate steps once enough time has elapsed.
-/

namespace BreathingApp

/-- Soundscape kinds, from `BackgroundMusicType` in `src/types.ts`. -/
inductive BackgroundMusicType
  | Off
  | AmbientHum
  | TibetanSingingBowl
  | BreathingBell
  | GentleRain
  | OmChant
deriving DecidableEq, Repr

/-- Oscillator waveforms used by the source (`oscillator.type`). -/
inductive OscType
  | sine
  | triangle
deriving DecidableEq, Repr

/-- The three classes of audio nodes the source creates. -/
inductive NodeKind
  | gain
  | oscillator
  | bufferSource
deriving DecidableEq, Repr

/-- The source's `"stop" in node` test: scheduled sources (oscillators and
buffer sources) have a `stop` method, gain nodes do not. -/
def NodeKind.hasStop : NodeKind → Bool
  | .gain => false
  | .oscillator => true
  | .bufferSource => true

/-- Events the source schedules on a `gain` AudioParam, in call order. -/
inductive GainEvent
  | setValueAtTime (v t : ℤ)
  | linearRampToValueAtTime (v t : ℤ)
  | exponentialRampToValueAtTime (v t : ℤ)
deriving DecidableEq, Repr

def GainEvent.isLinearRamp : GainEvent → Bool
  | .linearRampToValueAtTime _ _ => true
  | _ => false

/-- A `connect` target: `context.destination` or another node (by id). -/
inductive Conn
  | destination
  | node (id : Nat)
deriving DecidableEq, Repr

/-- State of one audio node.  `started`/`stopAt` are the scheduled
`start(t)` / `stop(t)` times; `stop()` with no argument stops at the
current time.  `disconnected` is set by `disconnect()`. -/
structure ANode where
  kind : NodeKind
  oscType : OscType := .sine
  freqEvents : List (ℤ × ℤ) := []
  gainEvents : List GainEvent := []
  started : Option ℤ := none
  stopAt : Option ℤ := none
  conns : List Conn := []
  disconnected : Bool := false
  loop : Bool := false
deriving DecidableEq, Repr

/-- Timer callbacks occurring in the source: the `setInterval(playBowl, …)`
strike of `TibetanSingingBowl`, the self-rescheduling `scheduleNextBell`
closure of `BreathingBell` (carrying the `breathPhase` it will use), and
the deferred disconnect scheduled by `stopBackgroundMusic`. -/
inductive TimerCb
  | playBowl (masterGain : Nat)
  | bellStep (masterGain : Nat) (phase : Nat)
  | disconnectAll (ids : List Nat)
deriving DecidableEq, Repr

/-- A `setInterval`/`setTimeout` handle.  `fireAt` is on the same
millisecond clock as `World.now`; `delayMs` is the registered delay.
Browsers put timeouts and intervals in one handle namespace, so
`clearInterval` clears either kind. -/
structure Timer where
  isInterval : Bool
  delayMs : ℤ
  fireAt : ℤ
  cb : TimerCb
  cleared : Bool := false
  fired : Bool := false
deriving DecidableEq, Repr

/-- The `MusicNodes` record stored in `backgroundMusicNodesRef.current`. -/
structure MusicNodes where
  type : BackgroundMusicType
  nodeIds : List Nat
  intervalId : Option Nat
deriving DecidableEq, Repr

/-- Console-error entries emitted by the engine. -/
inductive LogEntry
  | webAudioUnsupported
  | loadError
deriving DecidableEq, Repr

/-- The whole engine state.  `isBrowser`/`webAudioOk` model the environment
checks (`typeof window !== "undefined"`, constructor success); `ctxRef` is
`audioContextRef.current` as an instance id; `now` is
`context.currentTime` in milliseconds; `nodes`/`timers` are id-keyed
stores of everything ever created (appended at the tail, so ids are
fresh); `rands` supplies `Math.random()` draws in order as integer
thousandths (0 when exhausted). -/
structure World where
  isBrowser : Bool
  webAudioOk : Bool
  now : ℤ
  ctxRef : Option Nat
  nextId : Nat
  nodes : List (Nat × ANode)
  timers : List (Nat × Timer)
  music : Option MusicNodes
  log : List LogEntry
  rands : List ℤ
deriving DecidableEq, Repr

/-- A fresh browser world with Web Audio available. -/
def initWorld : World :=
  { isBrowser := true, webAudioOk := true, now := 0, ctxRef := none,
    nextId := 0, nodes := [], timers := [], music := none, log := [],
    rands := [] }

/-- One `Math.random()` draw (next element of the stream, 0 if exhausted). -/
def takeRand (w : World) : ℤ × World :=
  match w.rands with
  | [] => (0, w)
  | r :: rs => (r, { w with rands := rs })

/-- Update the node with the given id in place (keys are preserved). -/
def updNode (w : World) (i : Nat) (f : ANode → ANode) : World :=
  { w with nodes := w.nodes.map fun p => if p.1 = i then (p.1, f p.2) else p }

/-- `clearInterval(j)` / `clearTimeout(j)` on a timer list: marks the handle
cleared.  Clearing a missing or already-cleared handle is a no-op. -/
def clearHandle (j : Nat) (ts : List (Nat × Timer)) : List (Nat × Timer) :=
  ts.map fun p => if p.1 = j then (p.1, { p.2 with cleared := true }) else p

def clearTimer (j : Nat) (w : World) : World :=
  { w with timers := clearHandle j w.timers }

/-- Register a timer, returning its fresh handle. -/
def addTimer (w : World) (t : Timer) : Nat × World :=
  (w.nextId,
   { w with
     timers := w.timers ++ [(w.nextId, t)]
     nextId := w.nextId + 1 })

/-- Semantics of a `node.stop(t)` call at clock time `now` (`stop()` with no
argument is `stop(now)`): throws (swallowed by the source's `try`/`catch`)
if the node was never started; re-invocation replaces a pending stop time
but has no effect once the node has already stopped. -/
def applyStopCall (t now : ℤ) (n : ANode) : ANode :=
  if n.started.isSome then
    match n.stopAt with
    | some t0 => if t0 ≤ now then n else { n with stopAt := some t }
    | none => { n with stopAt := some t }
  else n

/-- `getAudioContext` (`src/hooks/useAudio.ts:40-56`): returns `null`
outside a browser; lazily constructs the context, logging and returning
`null` if the Web Audio API is unavailable; afterwards always returns the
same stored instance.  (The fire-and-forget `resume()` of a suspended
context has no modelled effect.) -/
def getAudioContext (w : World) : Option Nat × World :=
  if w.isBrowser = false then (none, w)
  else
    match w.ctxRef with
    | some i => (some i, w)
    | none =>
      if w.webAudioOk then
        (some w.nextId,
         { w with ctxRef := some w.nextId, nextId := w.nextId + 1 })
      else (none, { w with log := w.log ++ [.webAudioUnsupported] })

/-- One-shot cue names accepted by `playSound`. -/
inductive CueType
  | inhale
  | exhale
  | chime
  | hold
deriving DecidableEq, Repr

/-- An immutable one-shot tone descriptor. -/
structure ToneProfile where
  freq : ℤ
  gain : ℤ
  duration : ℤ
  oscType : OscType
deriving DecidableEq, Repr

/-- The `switch (type)` table of `playSound` (`src/hooks/useAudio.ts:73-98`):
inhale 660 Hz / 0.2 / 0.15 s sine, exhale 440 Hz / 0.15 / 0.2 s sine, chime
880 Hz / 0.4 / 0.2 s triangle, hold 523.25 Hz / 0.3 / 0.5 s sine — here in
milli-hertz, 10⁻⁴ gain units and milliseconds. -/
def cueProfile : CueType → ToneProfile
  | .inhale => ⟨660000, 2000, 150, .sine⟩
  | .exhale => ⟨440000, 1500, 200, .sine⟩
  | .chime => ⟨880000, 4000, 200, .triangle⟩
  | .hold => ⟨523250, 3000, 500, .sine⟩

/-- The oscillator built by `playSound`: frequency set at the current time,
started immediately, stopped at `currentTime + duration`, connected to the
cue's gain node. -/
def cueOscNode (p : ToneProfile) (now : ℤ) (gainId : Nat) : ANode :=
  { kind := .oscillator, oscType := p.oscType,
    freqEvents := [(p.freq, now)],
    started := some now, stopAt := some (now + p.duration),
    conns := [.node gainId] }

/-- The gain node built by `playSound`: instant set to the peak gain, then an
exponential decay ramp to the 0.0001 floor (= 1 in 10⁻⁴ gain units),
connected to the destination. -/
def cueGainNode (p : ToneProfile) (now : ℤ) : ANode :=
  { kind := .gain,
    gainEvents := [.setValueAtTime p.gain now,
                   .exponentialRampToValueAtTime 1 (now + p.duration)],
    conns := [.destination] }

/-- The node construction of `playSound`: one oscillator plus one gain node
per cue, oscillator → gain → destination. -/
def playCue (ty : CueType) (w1 : World) : World :=
  let p := cueProfile ty
  let oscId := w1.nextId
  let gainId := w1.nextId + 1
  { w1 with
    nodes := w1.nodes ++
      [(oscId, cueOscNode p w1.now gainId),
       (gainId, cueGainNode p w1.now)],
    nextId := w1.nextId + 2 }

/-- `playSound` (`src/hooks/useAudio.ts:58-111`): silently no-op without a
context, otherwise synthesize the cue. -/
def playSound (ty : CueType) (w : World) : World :=
  match getAudioContext w with
  | (none, w1) => w1
  | (some _, w1) => playCue ty w1

/-- The master gain every soundscape starts from
(`src/hooks/useAudio.ts:190-193`): gain set to 0 at the current time,
connected to the destination. -/
def masterGainNode (now : ℤ) : ANode :=
  { kind := .gain, gainEvents := [.setValueAtTime 0 now],
    conns := [.destination] }

/-- Append a `linearRampToValueAtTime` on a node's gain param. -/
def rampGain (w : World) (i : Nat) (v t : ℤ) : World :=
  updNode w i fun n =>
    { n with gainEvents := n.gainEvents ++ [.linearRampToValueAtTime v t] }

/-- The harmonic ratios of the singing bowl (`harmonics`, line 220):
1, 2.1, 3.2, 4.5, 6.1, stored in tenths. -/
def bowlHarmonics : List ℤ := [10, 21, 32, 45, 61]

/-- One harmonic of a bowl strike (`harmonics.forEach` body, lines 222-244):
a sine oscillator at `fundamental * harmonic` (centi-hertz × tenths =
milli-hertz) feeding a gain envelope whose amplitude is `0.3 / (index + 1)`
(= 3000 / (index + 1) in 10⁻⁴ units — exact for all five indexes): 0 →
amplitude over 0.1 s, exponential decay to the 0.001 floor (= 10) over a
randomized 8-12 s decay, started now and stopped at `now + decay`. -/
def bowlStep (mg : Nat) (fund now : ℤ) (acc : List Nat × World)
    (hi : ℤ × Nat) : List Nat × World :=
  let r := (takeRand acc.2).1
  let w1 := (takeRand acc.2).2
  let amplitude : ℤ := 3000 / ((hi.2 : ℤ) + 1)
  let decay : ℤ := 8000 + r * 4
  let oscId := w1.nextId
  let gId := w1.nextId + 1
  let osc : ANode :=
    { kind := .oscillator, freqEvents := [(fund * hi.1, now)],
      started := some now, stopAt := some (now + decay),
      conns := [.node gId] }
  let g : ANode :=
    { kind := .gain,
      gainEvents := [.setValueAtTime 0 now,
                     .linearRampToValueAtTime amplitude (now + 100),
                     .exponentialRampToValueAtTime 10 (now + decay)],
      conns := [.node mg] }
  (acc.1 ++ [oscId, gId],
   { w1 with
     nodes := w1.nodes ++ [(oscId, osc), (gId, g)]
     nextId := w1.nextId + 2 })

/-- `playBowl` (lines 215-245): a randomized fundamental in [130, 150) Hz
(= 13000 + r·2 centi-hertz for a draw r in thousandths), one enveloped
oscillator per harmonic ratio, all into the master gain; returns the ids
pushed onto `allNodes`. -/
def playBowlStrike (mg : Nat) (w : World) : List Nat × World :=
  let r0 := (takeRand w).1
  let w1 := (takeRand w).2
  let fund : ℤ := 13000 + r0 * 2
  (bowlHarmonics.zip [0, 1, 2, 3, 4]).foldl
    (bowlStep mg fund w1.now) ([], w1)

/-- `playBell` (lines 254-273): a C5 (523.25 Hz) sine with a 0.01 s linear
attack to 0.2 and a 3 s exponential decay to the 0.001 floor, into the
master gain, stopped at `now + 3` s. -/
def playBellStrike (mg : Nat) (w : World) : List Nat × World :=
  let oscId := w.nextId
  let gId := w.nextId + 1
  let osc : ANode :=
    { kind := .oscillator, freqEvents := [(523250, w.now)],
      started := some w.now, stopAt := some (w.now + 3000),
      conns := [.node gId] }
  let g : ANode :=
    { kind := .gain,
      gainEvents := [.setValueAtTime 0 w.now,
                     .linearRampToValueAtTime 2000 (w.now + 10),
                     .exponentialRampToValueAtTime 10 (w.now + 3000)],
      conns := [.node mg] }
  ([oscId, gId],
   { w with
     nodes := w.nodes ++ [(oscId, osc), (gId, g)]
     nextId := w.nextId + 2 })

/-- The 4-7-8 `breathPattern` of `BreathingBell` (milliseconds, line 277). -/
def breathPattern : List ℤ := [4000, 7000, 8000]

/-- Cleanup applied to each node in the final cancellation block of
`startBackgroundMusic` (lines 364-381): `stop()` on stoppable nodes (throw
swallowed), then `disconnect()`. -/
def cancelCleanupNode (now : ℤ) (n : ANode) : ANode :=
  let n1 := if n.kind.hasStop then applyStopCall now now n else n
  { n1 with disconnected := true }

def forceStopDisconnect (now : ℤ) (ids : List Nat) (w : World) : World :=
  { w with
    nodes := w.nodes.map fun p =>
      if p.1 ∈ ids then (p.1, cancelCleanupNode now p.2) else p }

/-- The shared tail of `startBackgroundMusic` (lines 364-388): a last
`isCancelled()` check (call index `k`) that force-stops and disconnects
everything already built, or else promotes the record into
`backgroundMusicNodesRef.current`.  Note the cancellation block does not
clear `intervalId`. -/
def finishStart (mt : BackgroundMusicType) (cancel : Nat → Bool) (k : Nat)
    (allIds : List Nat) (intervalId : Option Nat) (w : World) : World :=
  if cancel k then forceStopDisconnect w.now allIds w
  else { w with music := some ⟨mt, allIds, intervalId⟩ }

/-- Fade-in target volume of the sample-backed kinds (lines 313-316,
347-350). -/
def sampleVolume : BackgroundMusicType → ℤ
  | .GentleRain => 800
  | .OmChant => 500
  | _ => 0

/-- Is the kind sample-backed (fetch + decode: `GentleRain`, `OmChant`)? -/
def isSample : BackgroundMusicType → Bool
  | .GentleRain => true
  | .OmChant => true
  | _ => false

/-- The `AmbientHum` branch (lines 196-210): fade the master gain to 0.1
over 3 s and start two detuned sines (80 Hz and 80.5 Hz). -/
def buildHum (mt : BackgroundMusicType) (cancel : Nat → Bool) (mgId : Nat)
    (now : ℤ) (w2 : World) : World :=
  let w3 := rampGain w2 mgId 1000 (now + 3000)
  let o1 : ANode :=
    { kind := .oscillator, freqEvents := [(80000, now)],
      started := some now, conns := [.node mgId] }
  let o2 : ANode :=
    { kind := .oscillator, freqEvents := [(80500, now)],
      started := some now, conns := [.node mgId] }
  let o1Id := w3.nextId
  let o2Id := w3.nextId + 1
  let w4 : World :=
    { w3 with
      nodes := w3.nodes ++ [(o1Id, o1), (o2Id, o2)]
      nextId := w3.nextId + 2 }
  finishStart mt cancel 1 [mgId, o1Id, o2Id] none w4

/-- The `TibetanSingingBowl` branch (lines 212-249): fade to 0.3 over 2 s,
strike once synchronously, and re-strike on a randomized interval —
`setInterval(playBowl, 12000 + Math.random() * 5000)`, i.e. a period of
12000 + r·5 ms for a draw r in thousandths. -/
def buildBowl (mt : BackgroundMusicType) (cancel : Nat → Bool) (mgId : Nat)
    (now : ℤ) (w2 : World) : World :=
  let w3 := rampGain w2 mgId 3000 (now + 2000)
  let ids := (playBowlStrike mgId w3).1
  let w4 := (playBowlStrike mgId w3).2
  let period : ℤ := 12000 + (takeRand w4).1 * 5
  let w5 := (takeRand w4).2
  let tw := addTimer w5
    { isInterval := true, delayMs := period,
      fireAt := now + period, cb := .playBowl mgId }
  finishStart mt cancel 1 (mgId :: ids) (some tw.1) tw.2

/-- The `BreathingBell` branch (lines 251-293): fade to 0.2 over 1 s, then
`scheduleNextBell` runs once synchronously with `breathPhase = 0`: it plays
a bell, advances the phase to 1, and registers a timeout of
`breathPattern[1]`.  Only this first timeout handle is copied into
`intervalId` (lines 280-292). -/
def buildBell (mt : BackgroundMusicType) (cancel : Nat → Bool) (mgId : Nat)
    (now : ℤ) (w2 : World) : World :=
  let w3 := rampGain w2 mgId 2000 (now + 1000)
  let ids := (playBellStrike mgId w3).1
  let w4 := (playBellStrike mgId w3).2
  let d := breathPattern.getD 1 0
  let tw := addTimer w4
    { isInterval := false, delayMs := d,
      fireAt := now + d, cb := .bellStep mgId 1 }
  finishStart mt cancel 1 (mgId :: ids) (some tw.1) tw.2

/-- The sample-backed branches (`GentleRain` lines 295-327, `OmChant` lines
329-361 — two textually identical `try`/`catch` blocks differing only in
asset path and target volume, modelled once): fetch, read, decode, with an
`isCancelled()` check after each `await` that `return`s directly — skipping
both the `catch` and the final cleanup block, so the already-connected
master gain is left behind.  A rejection lands in the `catch`, which logs
only when the (next) `isCancelled()` call is false, and also returns
without cleanup.  On success: a looping buffer source into the master gain,
started, then the fade-in ramp, then the final checkpoint (call 4). -/
def buildSample (mt : BackgroundMusicType) (cancel : Nat → Bool)
    (fetchOk bufferOk decodeOk : Bool) (mgId : Nat) (now : ℤ)
    (w2 : World) : World :=
  if !fetchOk then
    if !(cancel 1) then { w2 with log := w2.log ++ [.loadError] }
    else w2
  else if cancel 1 then w2
  else if !bufferOk then
    if !(cancel 2) then { w2 with log := w2.log ++ [.loadError] }
    else w2
  else if cancel 2 then w2
  else if !decodeOk then
    if !(cancel 3) then { w2 with log := w2.log ++ [.loadError] }
    else w2
  else if cancel 3 then w2
  else
    let srcId := w2.nextId
    let src : ANode :=
      { kind := .bufferSource, loop := true,
        started := some now, conns := [.node mgId] }
    let w3 : World :=
      { w2 with
        nodes := w2.nodes ++ [(srcId, src)]
        nextId := w2.nextId + 1 }
    let w4 := rampGain w3 mgId (sampleVolume mt) (now + 3000)
    finishStart mt cancel 4 [mgId, srcId] none w4

/-- The construction phase of `startBackgroundMusic`
(`src/hooks/useAudio.ts:183-388`), entered once the guard has passed: the
master gain is created, connected and pushed first (lines 190-193), then
the `switch (musicType)` dispatches to the kind's builder; each builder
ends in the shared tail (`finishStart`, lines 364-388).

`cancel n` is the value returned by the `n`-th call to `isCancelled()`
during this invocation (0 = the entry guard).  `fetchOk`, `bufferOk`,
`decodeOk` are the outcomes of `fetch`, `response.arrayBuffer()` and
`decodeAudioData` for the sample-backed kinds (unused otherwise). -/
def startBuild (mt : BackgroundMusicType) (cancel : Nat → Bool)
    (fetchOk bufferOk decodeOk : Bool) (w1 : World) : World :=
  let now := w1.now
  let mgId := w1.nextId
  let w2 : World :=
    { w1 with
      nodes := w1.nodes ++ [(mgId, masterGainNode now)]
      nextId := w1.nextId + 1 }
  match mt with
  | .Off => w2
  | .AmbientHum => buildHum mt cancel mgId now w2
  | .TibetanSingingBowl => buildBowl mt cancel mgId now w2
  | .BreathingBell => buildBell mt cancel mgId now w2
  | .GentleRain => buildSample mt cancel fetchOk bufferOk decodeOk mgId now w2
  | .OmChant => buildSample mt cancel fetchOk bufferOk decodeOk mgId now w2

/-- The guard of `startBackgroundMusic` (lines 175-181), with the context
already obtained: bail out if a soundscape is already active, the kind is
`Off`, or the caller is already cancelled; otherwise build. -/
def startEntry (mt : BackgroundMusicType) (cancel : Nat → Bool)
    (fetchOk bufferOk decodeOk : Bool) (w1 : World) : World :=
  if w1.music.isSome || (mt == .Off) || cancel 0 then w1
  else startBuild mt cancel fetchOk bufferOk decodeOk w1

/-- `startBackgroundMusic` (`src/hooks/useAudio.ts:170-390`): obtain (or
lazily create) the context, then run the guarded construction. -/
def startBackgroundMusic (mt : BackgroundMusicType) (cancel : Nat → Bool)
    (fetchOk bufferOk decodeOk : Bool) (w : World) : World :=
  match getAudioContext w with
  | (none, w1) => w1
  | (some _, w1) => startEntry mt cancel fetchOk bufferOk decodeOk w1

/-- The disconnect callback `stopBackgroundMusic` defers by 2000 ms
(lines 417-423). -/
def stopDisconnectTimer (now : ℤ) (ids : List Nat) : Timer :=
  { isInterval := false, delayMs := 2000, fireAt := now + 2000,
    cb := .disconnectAll ids }

/-- The teardown phase of `stopBackgroundMusic` (lines 397-425), given the
record `m`: clear the stored interval handle (`clearInterval` also clears a
timeout handle — the handle namespaces are shared), ramp the master gain
(`nodes[0]`) to 0 over 2 s, schedule `stop(fadeOutTime)` on every stoppable
node of the record (throws swallowed), defer every disconnect by a 2000 ms
timeout, and null the record synchronously. -/
def stopTeardown (m : MusicNodes) (w1 : World) : World :=
  let w2 : World := match m.intervalId with
    | some j => clearTimer j w1
    | none => w1
  let fadeOutTime : ℤ := w2.now + 2000
  let w3 : World := match m.nodeIds.head? with
    | some mgId => rampGain w2 mgId 0 fadeOutTime
    | none => w2
  let w4 : World :=
    { w3 with
      nodes := w3.nodes.map fun p =>
        if p.1 ∈ m.nodeIds ∧ p.2.kind.hasStop = true then
          (p.1, applyStopCall fadeOutTime w3.now p.2)
        else p }
  let w5 := (addTimer w4 (stopDisconnectTimer w4.now m.nodeIds)).2
  { w5 with music := none }

/-- `stopBackgroundMusic` (`src/hooks/useAudio.ts:392-426`): no-op without a
context or a record; otherwise tear the active soundscape down. -/
def stopBackgroundMusic (w : World) : World :=
  match getAudioContext w with
  | (none, w1) => w1
  | (some _, w1) =>
    match w1.music with
    | none => w1
    | some m => stopTeardown m w1

/-- If the active record's master gain (head of its node list) is `mg`, the
record's `nodes` array is the very `allNodes` array the generator closures
still push into, so freshly created strike nodes land in the record too. -/
def pushToMusicIfOwner (mg : Nat) (ids : List Nat) (w : World) : World :=
  match w.music with
  | some m =>
    if m.nodeIds.head? = some mg then
      { w with music := some { m with nodeIds := m.nodeIds ++ ids } }
    else w
  | none => w

/-- Behaviour of each timer callback when it fires. -/
def runTimerCb : TimerCb → World → World
  | .disconnectAll ids, w =>
    { w with
      nodes := w.nodes.map fun p =>
        if p.1 ∈ ids then (p.1, { p.2 with disconnected := true }) else p }
  | .playBowl mg, w =>
    pushToMusicIfOwner mg (playBowlStrike mg w).1 (playBowlStrike mg w).2
  | .bellStep mg phase, w =>
    -- `scheduleNextBell`: play a bell, advance the phase, and re-register
    -- itself with the next phase's delay.  The new handle is only written
    -- to the local `currentTimeout`, never back into the stored record.
    let w2 := pushToMusicIfOwner mg (playBellStrike mg w).1
      (playBellStrike mg w).2
    let phase1 := (phase + 1) % 3
    let d := breathPattern.getD phase1 0
    (addTimer w2
      { isInterval := false, delayMs := d,
        fireAt := w2.now + d, cb := .bellStep mg phase1 }).2

/-- The event loop running a due timer: a cleared handle or a spent timeout
never fires; an interval re-arms itself one period later. -/
def fireTimer (i : Nat) (w : World) : World :=
  match w.timers.lookup i with
  | none => w
  | some t =>
    if t.cleared || (!t.isInterval && t.fired) || decide (w.now < t.fireAt)
    then w
    else
      let w1 : World :=
        { w with
          timers := w.timers.map fun p =>
            if p.1 = i then
              (p.1, { p.2 with
                      fired := true
                      fireAt := if p.2.isInterval then
                          p.2.fireAt + p.2.delayMs
                        else p.2.fireAt })
            else p }
      runTimerCb t.cb w1

/-- Wall-clock (and audio-clock) progress between engine calls. -/
def elapse (dt : ℤ) (w : World) : World := { w with now := w.now + dt }

/-- The operations the (out-of-scope) phase state machine and the event loop
can interleave. -/
inductive Op where
  | startOp (mt : BackgroundMusicType) (cancel : Nat → Bool)
      (fetchOk bufferOk decodeOk : Bool)
  | stopOp
  | cueOp (ty : CueType)
  | getCtxOp
  | fireOp (i : Nat)
  | elapseOp (dt : ℤ)

def applyOp : Op → World → World
  | .startOp mt c f b d, w => startBackgroundMusic mt c f b d w
  | .stopOp, w => stopBackgroundMusic w
  | .cueOp ty, w => playSound ty w
  | .getCtxOp, w => (getAudioContext w).2
  | .fireOp i, w => fireTimer i w
  | .elapseOp dt, w => elapse dt w

def run (ops : List Op) (w : World) : World :=
  ops.foldl (fun a o => applyOp o a) w

/-- A cancellation predicate that never cancels (`getIsCancelled` absent). -/
def cNever : Nat → Bool := fun _ => false

/-- A world whose audio context already exists. -/
def w0 : World := { initWorld with ctxRef := some 0, nextId := 1 }

/-! ### Basic lemmas about the context manager and the helpers -/

theorem gac_eq_of_some (w : World) (i : Nat) (hc : w.ctxRef = some i) :
    getAudioContext w = ((if w.isBrowser then some i else none), w) := by
  unfold getAudioContext
  rw [hc]
  cases hb : w.isBrowser <;> simp [hb]

theorem gac_eq_create (w : World) (hb : w.isBrowser = true)
    (hw : w.webAudioOk = true) (hc : w.ctxRef = none) :
    getAudioContext w =
      (some w.nextId,
       { w with ctxRef := some w.nextId, nextId := w.nextId + 1 }) := by
  unfold getAudioContext
  rw [hc]
  simp [hb, hw]

theorem gac_eq_browser_some (w : World) (i : Nat) (hb : w.isBrowser = true)
    (hc : w.ctxRef = some i) : getAudioContext w = (some i, w) := by
  rw [gac_eq_of_some w i hc, hb]
  rfl

theorem gac_eq_nobrowser (w : World) (hb : w.isBrowser = false) :
    getAudioContext w = (none, w) := by
  unfold getAudioContext
  rw [hb]
  rfl

theorem gac_snd_isBrowser (w : World) :
    (getAudioContext w).2.isBrowser = w.isBrowser := by
  unfold getAudioContext
  split
  · rfl
  · split
    · rfl
    · split <;> rfl

theorem gac_snd_webAudioOk (w : World) :
    (getAudioContext w).2.webAudioOk = w.webAudioOk := by
  unfold getAudioContext
  split
  · rfl
  · split
    · rfl
    · split <;> rfl

theorem gac_snd_music (w : World) :
    (getAudioContext w).2.music = w.music := by
  unfold getAudioContext
  split
  · rfl
  · split
    · rfl
    · split <;> rfl

theorem gac_snd_timers (w : World) :
    (getAudioContext w).2.timers = w.timers := by
  unfold getAudioContext
  split
  · rfl
  · split
    · rfl
    · split <;> rfl

theorem gac_snd_nodes (w : World) :
    (getAudioContext w).2.nodes = w.nodes := by
  unfold getAudioContext
  split
  · rfl
  · split
    · rfl
    · split <;> rfl

theorem gac_some_of_ok (w : World) (hb : w.isBrowser = true)
    (hw : w.webAudioOk = true) :
    ∃ j, (getAudioContext w).1 = some j
      ∧ (getAudioContext w).2.ctxRef = some j := by
  cases hc : w.ctxRef with
  | some i => exact ⟨i, by rw [gac_eq_of_some w i hc]; simp [hb, hc]⟩
  | none => exact ⟨w.nextId, by rw [gac_eq_create w hb hw hc]; simp⟩

theorem takeRand_ctxRef (w : World) : (takeRand w).2.ctxRef = w.ctxRef := by
  unfold takeRand
  cases w.rands <;> rfl

theorem takeRand_music (w : World) : (takeRand w).2.music = w.music := by
  unfold takeRand
  cases w.rands <;> rfl

theorem takeRand_timers (w : World) : (takeRand w).2.timers = w.timers := by
  unfold takeRand
  cases w.rands <;> rfl

theorem takeRand_nodesLen (w : World) :
    (takeRand w).2.nodes.length = w.nodes.length := by
  unfold takeRand
  cases w.rands <;> rfl

theorem takeRand_log (w : World) : (takeRand w).2.log = w.log := by
  unfold takeRand
  cases w.rands <;> rfl

/-- `foldl` preserves any invariant its step preserves. -/
theorem foldl_keeps {α β : Type _} (P : β → Prop) (g : β → α → β)
    (hg : ∀ b a, P b → P (g b a)) :
    ∀ (l : List α) (b : β), P b → P (l.foldl g b) := by
  intro l
  induction l with
  | nil => intro b hb; exact hb
  | cons a l ih => intro b hb; exact ih (g b a) (hg b a hb)

theorem bowlStep_ctxRef (mg : Nat) (f n : ℤ) (acc : List Nat × World)
    (hi : ℤ × Nat) : (bowlStep mg f n acc hi).2.ctxRef = acc.2.ctxRef := by
  unfold bowlStep
  exact takeRand_ctxRef acc.2

theorem bowlStep_music (mg : Nat) (f n : ℤ) (acc : List Nat × World)
    (hi : ℤ × Nat) : (bowlStep mg f n acc hi).2.music = acc.2.music := by
  unfold bowlStep
  exact takeRand_music acc.2

theorem bowlStep_timers (mg : Nat) (f n : ℤ) (acc : List Nat × World)
    (hi : ℤ × Nat) : (bowlStep mg f n acc hi).2.timers = acc.2.timers := by
  unfold bowlStep
  exact takeRand_timers acc.2

theorem playBowlStrike_ctxRef (mg : Nat) (w : World) :
    (playBowlStrike mg w).2.ctxRef = w.ctxRef := by
  unfold playBowlStrike
  refine foldl_keeps (fun acc : List Nat × World => acc.2.ctxRef = w.ctxRef)
    _ (fun b a hb => ?_) _ _ (takeRand_ctxRef w)
  simp only [bowlStep_ctxRef]
  exact hb

theorem playBowlStrike_music (mg : Nat) (w : World) :
    (playBowlStrike mg w).2.music = w.music := by
  unfold playBowlStrike
  refine foldl_keeps (fun acc : List Nat × World => acc.2.music = w.music)
    _ (fun b a hb => ?_) _ _ (takeRand_music w)
  simp only [bowlStep_music]
  exact hb

theorem playBowlStrike_timers (mg : Nat) (w : World) :
    (playBowlStrike mg w).2.timers = w.timers := by
  unfold playBowlStrike
  refine foldl_keeps (fun acc : List Nat × World => acc.2.timers = w.timers)
    _ (fun b a hb => ?_) _ _ (takeRand_timers w)
  simp only [bowlStep_timers]
  exact hb

theorem updNode_ctxRef (w : World) (i : Nat) (f : ANode → ANode) :
    (updNode w i f).ctxRef = w.ctxRef := rfl

theorem updNode_music (w : World) (i : Nat) (f : ANode → ANode) :
    (updNode w i f).music = w.music := rfl

theorem updNode_timers (w : World) (i : Nat) (f : ANode → ANode) :
    (updNode w i f).timers = w.timers := rfl

theorem updNode_isBrowser (w : World) (i : Nat) (f : ANode → ANode) :
    (updNode w i f).isBrowser = w.isBrowser := rfl

theorem updNode_webAudioOk (w : World) (i : Nat) (f : ANode → ANode) :
    (updNode w i f).webAudioOk = w.webAudioOk := rfl

theorem updNode_now (w : World) (i : Nat) (f : ANode → ANode) :
    (updNode w i f).now = w.now := rfl

theorem updNode_nextId (w : World) (i : Nat) (f : ANode → ANode) :
    (updNode w i f).nextId = w.nextId := rfl

theorem updNode_log (w : World) (i : Nat) (f : ANode → ANode) :
    (updNode w i f).log = w.log := rfl

theorem clearTimer_ctxRef (j : Nat) (w : World) :
    (clearTimer j w).ctxRef = w.ctxRef := rfl

theorem clearTimer_music (j : Nat) (w : World) :
    (clearTimer j w).music = w.music := rfl

theorem clearTimer_isBrowser (j : Nat) (w : World) :
    (clearTimer j w).isBrowser = w.isBrowser := rfl

theorem clearTimer_webAudioOk (j : Nat) (w : World) :
    (clearTimer j w).webAudioOk = w.webAudioOk := rfl

theorem clearTimer_now (j : Nat) (w : World) :
    (clearTimer j w).now = w.now := rfl

theorem clearTimer_nodes (j : Nat) (w : World) :
    (clearTimer j w).nodes = w.nodes := rfl

theorem clearTimer_nextId (j : Nat) (w : World) :
    (clearTimer j w).nextId = w.nextId := rfl

theorem addTimer_snd_ctxRef (w : World) (t : Timer) :
    (addTimer w t).2.ctxRef = w.ctxRef := rfl

theorem addTimer_snd_music (w : World) (t : Timer) :
    (addTimer w t).2.music = w.music := rfl

theorem addTimer_snd_isBrowser (w : World) (t : Timer) :
    (addTimer w t).2.isBrowser = w.isBrowser := rfl

theorem addTimer_snd_webAudioOk (w : World) (t : Timer) :
    (addTimer w t).2.webAudioOk = w.webAudioOk := rfl

theorem addTimer_snd_now (w : World) (t : Timer) :
    (addTimer w t).2.now = w.now := rfl

theorem addTimer_snd_nodes (w : World) (t : Timer) :
    (addTimer w t).2.nodes = w.nodes := rfl

theorem forceStopDisconnect_ctxRef (now : ℤ) (ids : List Nat) (w : World) :
    (forceStopDisconnect now ids w).ctxRef = w.ctxRef := rfl

theorem forceStopDisconnect_music (now : ℤ) (ids : List Nat) (w : World) :
    (forceStopDisconnect now ids w).music = w.music := rfl

theorem forceStopDisconnect_timers (now : ℤ) (ids : List Nat) (w : World) :
    (forceStopDisconnect now ids w).timers = w.timers := rfl

theorem playBellStrike_snd_ctxRef (mg : Nat) (w : World) :
    (playBellStrike mg w).2.ctxRef = w.ctxRef := rfl

theorem playBellStrike_snd_music (mg : Nat) (w : World) :
    (playBellStrike mg w).2.music = w.music := rfl

theorem playBellStrike_snd_timers (mg : Nat) (w : World) :
    (playBellStrike mg w).2.timers = w.timers := rfl

theorem finishStart_ctxRef (mt : BackgroundMusicType) (c : Nat → Bool)
    (k : Nat) (ids : List Nat) (iv : Option Nat) (w : World) :
    (finishStart mt c k ids iv w).ctxRef = w.ctxRef := by
  unfold finishStart
  split <;> rfl

theorem finishStart_timers (mt : BackgroundMusicType) (c : Nat → Bool)
    (k : Nat) (ids : List Nat) (iv : Option Nat) (w : World) :
    (finishStart mt c k ids iv w).timers = w.timers := by
  unfold finishStart
  split <;> rfl

theorem finishStart_music_of_cancel (mt : BackgroundMusicType)
    (c : Nat → Bool) (k : Nat) (ids : List Nat) (iv : Option Nat) (w : World)
    (h : c k = true) : (finishStart mt c k ids iv w).music = w.music := by
  unfold finishStart
  rw [h]
  rfl

theorem finishStart_music_of_promote (mt : BackgroundMusicType)
    (c : Nat → Bool) (k : Nat) (ids : List Nat) (iv : Option Nat) (w : World)
    (h : c k = false) :
    (finishStart mt c k ids iv w).music = some ⟨mt, ids, iv⟩ := by
  unfold finishStart
  rw [h]
  rfl

/-! ### Dispatch lemmas: reducing the exported operations to their
guarded bodies -/

theorem start_eq_nobrowser (mt : BackgroundMusicType) (c : Nat → Bool)
    (f b d : Bool) (w : World) (hb : w.isBrowser = false) :
    startBackgroundMusic mt c f b d w = w := by
  simp only [startBackgroundMusic, gac_eq_nobrowser w hb]

theorem start_eq_entry (mt : BackgroundMusicType) (c : Nat → Bool)
    (f b d : Bool) (w : World) (i : Nat) (hb : w.isBrowser = true)
    (hc : w.ctxRef = some i) :
    startBackgroundMusic mt c f b d w = startEntry mt c f b d w := by
  simp only [startBackgroundMusic, gac_eq_browser_some w i hb hc]

theorem stop_eq_nobrowser (w : World) (hb : w.isBrowser = false) :
    stopBackgroundMusic w = w := by
  simp only [stopBackgroundMusic, gac_eq_nobrowser w hb]

theorem stop_eq_idle (w : World) (i : Nat) (hb : w.isBrowser = true)
    (hc : w.ctxRef = some i) (hm : w.music = none) :
    stopBackgroundMusic w = w := by
  simp only [stopBackgroundMusic, gac_eq_browser_some w i hb hc, hm]

theorem stop_eq_teardown (w : World) (m : MusicNodes) (i : Nat)
    (hb : w.isBrowser = true) (hc : w.ctxRef = some i)
    (hm : w.music = some m) :
    stopBackgroundMusic w = stopTeardown m w := by
  simp only [stopBackgroundMusic, gac_eq_browser_some w i hb hc, hm]

theorem playSound_eq_nobrowser (ty : CueType) (w : World)
    (hb : w.isBrowser = false) : playSound ty w = w := by
  simp only [playSound, gac_eq_nobrowser w hb]

theorem playSound_eq_cue (ty : CueType) (w : World) (i : Nat)
    (hb : w.isBrowser = true) (hc : w.ctxRef = some i) :
    playSound ty w = playCue ty w := by
  simp only [playSound, gac_eq_browser_some w i hb hc]

/-! ### Field lemmas for the composite operations -/

theorem takeRand_isBrowser (w : World) :
    (takeRand w).2.isBrowser = w.isBrowser := by
  unfold takeRand
  cases w.rands <;> rfl

theorem bowlStep_isBrowser (mg : Nat) (f n : ℤ) (acc : List Nat × World)
    (hi : ℤ × Nat) :
    (bowlStep mg f n acc hi).2.isBrowser = acc.2.isBrowser := by
  unfold bowlStep
  exact takeRand_isBrowser acc.2

theorem playBowlStrike_isBrowser (mg : Nat) (w : World) :
    (playBowlStrike mg w).2.isBrowser = w.isBrowser := by
  unfold playBowlStrike
  refine foldl_keeps
    (fun acc : List Nat × World => acc.2.isBrowser = w.isBrowser)
    _ (fun b a hb => ?_) _ _ (takeRand_isBrowser w)
  simp only [bowlStep_isBrowser]
  exact hb

theorem playBellStrike_snd_isBrowser (mg : Nat) (w : World) :
    (playBellStrike mg w).2.isBrowser = w.isBrowser := rfl

theorem forceStopDisconnect_isBrowser (now : ℤ) (ids : List Nat)
    (w : World) : (forceStopDisconnect now ids w).isBrowser = w.isBrowser :=
  rfl

theorem finishStart_isBrowser (mt : BackgroundMusicType) (c : Nat → Bool)
    (k : Nat) (ids : List Nat) (iv : Option Nat) (w : World) :
    (finishStart mt c k ids iv w).isBrowser = w.isBrowser := by
  unfold finishStart
  split <;> rfl

theorem pushToMusicIfOwner_ctxRef (mg : Nat) (ids : List Nat) (w : World) :
    (pushToMusicIfOwner mg ids w).ctxRef = w.ctxRef := by
  unfold pushToMusicIfOwner
  cases w.music with
  | none => rfl
  | some m => by_cases h : m.nodeIds.head? = some mg <;> simp [h]

theorem pushToMusicIfOwner_isBrowser (mg : Nat) (ids : List Nat)
    (w : World) : (pushToMusicIfOwner mg ids w).isBrowser = w.isBrowser := by
  unfold pushToMusicIfOwner
  cases w.music with
  | none => rfl
  | some m => by_cases h : m.nodeIds.head? = some mg <;> simp [h]

theorem stopTeardown_music (m : MusicNodes) (w1 : World) :
    (stopTeardown m w1).music = none := rfl

theorem stopTeardown_ctxRef (m : MusicNodes) (w1 : World) :
    (stopTeardown m w1).ctxRef = w1.ctxRef := by
  unfold stopTeardown
  cases m.intervalId <;> cases m.nodeIds.head? <;>
    simp [addTimer_snd_ctxRef, updNode_ctxRef, clearTimer_ctxRef, rampGain]

theorem stopTeardown_isBrowser (m : MusicNodes) (w1 : World) :
    (stopTeardown m w1).isBrowser = w1.isBrowser := by
  unfold stopTeardown
  cases m.intervalId <;> cases m.nodeIds.head? <;>
    simp [addTimer_snd_isBrowser, updNode_isBrowser, clearTimer_isBrowser,
      rampGain]

theorem stopTeardown_webAudioOk (m : MusicNodes) (w1 : World) :
    (stopTeardown m w1).webAudioOk = w1.webAudioOk := by
  unfold stopTeardown
  cases m.intervalId <;> cases m.nodeIds.head? <;>
    simp [addTimer_snd_webAudioOk, updNode_webAudioOk, clearTimer_webAudioOk,
      rampGain]

theorem buildHum_ctxRef (mt : BackgroundMusicType) (c : Nat → Bool)
    (mgId : Nat) (now : ℤ) (w2 : World) :
    (buildHum mt c mgId now w2).ctxRef = w2.ctxRef := by
  unfold buildHum
  simp [finishStart_ctxRef, rampGain, updNode_ctxRef]

theorem buildBowl_ctxRef (mt : BackgroundMusicType) (c : Nat → Bool)
    (mgId : Nat) (now : ℤ) (w2 : World) :
    (buildBowl mt c mgId now w2).ctxRef = w2.ctxRef := by
  unfold buildBowl
  simp [finishStart_ctxRef, addTimer_snd_ctxRef, takeRand_ctxRef,
    playBowlStrike_ctxRef, rampGain, updNode_ctxRef]

theorem buildBell_ctxRef (mt : BackgroundMusicType) (c : Nat → Bool)
    (mgId : Nat) (now : ℤ) (w2 : World) :
    (buildBell mt c mgId now w2).ctxRef = w2.ctxRef := by
  unfold buildBell
  simp [finishStart_ctxRef, addTimer_snd_ctxRef, playBellStrike_snd_ctxRef,
    rampGain, updNode_ctxRef]

theorem buildSample_ctxRef (mt : BackgroundMusicType) (c : Nat → Bool)
    (f b d : Bool) (mgId : Nat) (now : ℤ) (w2 : World) :
    (buildSample mt c f b d mgId now w2).ctxRef = w2.ctxRef := by
  unfold buildSample
  repeat' split
  all_goals simp [finishStart_ctxRef, rampGain, updNode_ctxRef]

theorem buildHum_isBrowser (mt : BackgroundMusicType) (c : Nat → Bool)
    (mgId : Nat) (now : ℤ) (w2 : World) :
    (buildHum mt c mgId now w2).isBrowser = w2.isBrowser := by
  unfold buildHum
  simp [finishStart_isBrowser, rampGain, updNode_isBrowser]

theorem buildBowl_isBrowser (mt : BackgroundMusicType) (c : Nat → Bool)
    (mgId : Nat) (now : ℤ) (w2 : World) :
    (buildBowl mt c mgId now w2).isBrowser = w2.isBrowser := by
  unfold buildBowl
  simp [finishStart_isBrowser, addTimer_snd_isBrowser, takeRand_isBrowser,
    playBowlStrike_isBrowser, rampGain, updNode_isBrowser]

theorem buildBell_isBrowser (mt : BackgroundMusicType) (c : Nat → Bool)
    (mgId : Nat) (now : ℤ) (w2 : World) :
    (buildBell mt c mgId now w2).isBrowser = w2.isBrowser := by
  unfold buildBell
  simp [finishStart_isBrowser, addTimer_snd_isBrowser,
    playBellStrike_snd_isBrowser, rampGain, updNode_isBrowser]

theorem buildSample_isBrowser (mt : BackgroundMusicType) (c : Nat → Bool)
    (f b d : Bool) (mgId : Nat) (now : ℤ) (w2 : World) :
    (buildSample mt c f b d mgId now w2).isBrowser = w2.isBrowser := by
  unfold buildSample
  repeat' split
  all_goals simp [finishStart_isBrowser, rampGain, updNode_isBrowser]

theorem startBuild_ctxRef (mt : BackgroundMusicType) (c : Nat → Bool)
    (f b d : Bool) (w1 : World) :
    (startBuild mt c f b d w1).ctxRef = w1.ctxRef := by
  unfold startBuild
  cases mt <;>
    simp [buildHum_ctxRef, buildBowl_ctxRef, buildBell_ctxRef,
      buildSample_ctxRef]

theorem startBuild_isBrowser (mt : BackgroundMusicType) (c : Nat → Bool)
    (f b d : Bool) (w1 : World) :
    (startBuild mt c f b d w1).isBrowser = w1.isBrowser := by
  unfold startBuild
  cases mt <;>
    simp [buildHum_isBrowser, buildBowl_isBrowser, buildBell_isBrowser,
      buildSample_isBrowser]

theorem startEntry_ctxRef (mt : BackgroundMusicType) (c : Nat → Bool)
    (f b d : Bool) (w1 : World) :
    (startEntry mt c f b d w1).ctxRef = w1.ctxRef := by
  unfold startEntry
  split
  · rfl
  · exact startBuild_ctxRef mt c f b d w1

theorem startEntry_isBrowser (mt : BackgroundMusicType) (c : Nat → Bool)
    (f b d : Bool) (w1 : World) :
    (startEntry mt c f b d w1).isBrowser = w1.isBrowser := by
  unfold startEntry
  split
  · rfl
  · exact startBuild_isBrowser mt c f b d w1

theorem playCue_music (ty : CueType) (w1 : World) :
    (playCue ty w1).music = w1.music := rfl

theorem playCue_timers (ty : CueType) (w1 : World) :
    (playCue ty w1).timers = w1.timers := rfl

/-! ### C2 -/

/-- C2 (amended): calling `startBackgroundMusic` while a soundscape record
is present (and the audio context exists) is a no-op that leaves the whole
state unchanged, for every kind, cancellation predicate and load outcome;
at most one soundscape record exists at a time (the ref holds at most one
`MusicNodes`).  However — contrary to the original claim — two soundscapes'
node graphs *can* coexist: during the 2-second fade-out after `stop`, the
record is already null while the old graph is still connected, so a new
`start` is accepted (see the counterexample). -/
theorem start_while_active_noop (w : World) (m : MusicNodes) (i : Nat)
    (hm : w.music = some m) (hc : w.ctxRef = some i)
    (mt : BackgroundMusicType) (c : Nat → Bool) (f b d : Bool) :
    startBackgroundMusic mt c f b d w = w := by
  cases hbr : w.isBrowser
  · exact start_eq_nobrowser mt c f b d w hbr
  · rw [start_eq_entry mt c f b d w i hbr hc]
    unfold startEntry
    simp [hm]

/-- A world with an `AmbientHum` soundscape active (context id 0, record
nodes 1-3). -/
def wActive : World :=
  run [.getCtxOp, .startOp .AmbientHum cNever true true true] initWorld

theorem start_while_active_noop_witness :
    wActive.music = some ⟨.AmbientHum, [1, 2, 3], none⟩
    ∧ startBackgroundMusic .GentleRain cNever true true true wActive
        = wActive :=
  ⟨by decide,
   start_while_active_noop wActive ⟨.AmbientHum, [1, 2, 3], none⟩ 0
     (by decide) (by decide) .GentleRain cNever true true true⟩

/-- The start/stop/start trace in which two graphs coexist. -/
def trace2 : List Op :=
  [.getCtxOp, .startOp .AmbientHum cNever true true true, .stopOp,
   .startOp .AmbientHum cNever true true true]

/-- Master gains that are connected to the destination and not (yet)
disconnected: one per coexisting soundscape graph. -/
def liveDestGains (w : World) : Nat :=
  (w.nodes.filter fun p =>
    decide (p.2.kind = .gain ∧ p.2.disconnected = false
      ∧ Conn.destination ∈ p.2.conns)).length

/-- C2 counterexample: after `start(AmbientHum); stop(); start(AmbientHum)`
— the second start issued during the 2-second fade-out, before the deferred
disconnect fires — two soundscapes' node graphs coexist: two master gains
are simultaneously connected to the destination, and none of the six nodes
of the two graphs is disconnected.  This refutes "at no point do two
soundscapes' node graphs coexist". -/
theorem two_soundscape_graphs_coexist :
    liveDestGains (run trace2 initWorld) = 2
    ∧ (run trace2 initWorld).nodes.length = 6
    ∧ ((run trace2 initWorld).nodes.filter fun p =>
        decide (p.2.disconnected = false)).length = 6 := by decide

/-! ### C3 -/

theorem stop_music_none (w : World) (hb : w.isBrowser = true)
    (hw : w.webAudioOk = true) : (stopBackgroundMusic w).music = none := by
  obtain ⟨j, h1, h2⟩ := gac_some_of_ok w hb hw
  unfold stopBackgroundMusic
  cases hgac : getAudioContext w with
  | mk o w1 =>
    rw [hgac] at h1 h2
    have ho : o = some j := h1
    have hmu : w1.music = w.music := by rw [← gac_snd_music w, hgac]
    subst ho
    dsimp only
    cases hmm : w1.music with
    | none => exact hmm
    | some m => exact stopTeardown_music m w1

theorem stop_ctxRef (w : World) (hb : w.isBrowser = true)
    (hw : w.webAudioOk = true) :
    ∃ j, (stopBackgroundMusic w).ctxRef = some j := by
  obtain ⟨j, h1, h2⟩ := gac_some_of_ok w hb hw
  refine ⟨j, ?_⟩
  unfold stopBackgroundMusic
  cases hgac : getAudioContext w with
  | mk o w1 =>
    rw [hgac] at h1 h2
    have ho : o = some j := h1
    have hctx : w1.ctxRef = some j := h2
    subst ho
    dsimp only
    cases hmm : w1.music with
    | none => exact hctx
    | some m => exact (stopTeardown_ctxRef m w1).trans hctx

theorem stop_isBrowser (w : World) :
    (stopBackgroundMusic w).isBrowser = w.isBrowser := by
  unfold stopBackgroundMusic
  cases hgac : getAudioContext w with
  | mk o w1 =>
    have hw1 : w1.isBrowser = w.isBrowser := by
      rw [← gac_snd_isBrowser w, hgac]
    cases o
    · exact hw1
    · dsimp only
      cases hmm : w1.music with
      | none => exact hw1
      | some m => exact (stopTeardown_isBrowser m w1).trans hw1

theorem stop_webAudioOk (w : World) :
    (stopBackgroundMusic w).webAudioOk = w.webAudioOk := by
  unfold stopBackgroundMusic
  cases hgac : getAudioContext w with
  | mk o w1 =>
    have hw1 : w1.webAudioOk = w.webAudioOk := by
      rw [← gac_snd_webAudioOk w, hgac]
    cases o
    · exact hw1
    · dsimp only
      cases hmm : w1.music with
      | none => exact hw1
      | some m => exact (stopTeardown_webAudioOk m w1).trans hw1

/-- C3: `stopBackgroundMusic` is idempotent: a second call in a row returns
the exact same state (hence performs no node operation: any gain ramp, node
stop or disconnect would change a node's state), and calling it while the
record is already null (with the context existing) changes nothing at
all. -/
theorem stop_idempotent (w : World) (hb : w.isBrowser = true)
    (hw : w.webAudioOk = true) :
    stopBackgroundMusic (stopBackgroundMusic w) = stopBackgroundMusic w
    ∧ (w.music = none → ∀ i, w.ctxRef = some i →
        stopBackgroundMusic w = w) := by
  constructor
  · obtain ⟨j, hj⟩ := stop_ctxRef w hb hw
    exact stop_eq_idle (stopBackgroundMusic w) j
      ((stop_isBrowser w).trans hb) hj (stop_music_none w hb hw)
  · intro hm i hc
    exact stop_eq_idle w i hb hc hm

theorem stop_idempotent_witness :
    wActive.isBrowser = true ∧ wActive.webAudioOk = true
    ∧ stopBackgroundMusic (stopBackgroundMusic wActive)
        = stopBackgroundMusic wActive :=
  ⟨by decide, by decide, (stop_idempotent wActive (by decide) (by decide)).1⟩

/-! ### Lookup lemmas for the id-keyed stores -/

theorem lookup_append_some {β : Type _} (l1 l2 : List (Nat × β)) (id : Nat)
    (b : β) (h : l1.lookup id = some b) : (l1 ++ l2).lookup id = some b := by
  induction l1 with
  | nil => simp [List.lookup] at h
  | cons p t ih =>
    obtain ⟨k, v⟩ := p
    rw [List.cons_append]
    simp only [List.lookup] at h ⊢
    cases hbeq : (id == k) with
    | true =>
      rw [hbeq] at h
      exact h
    | false =>
      rw [hbeq] at h
      exact ih h

/-- Looking up after an in-place conditional update: keys are untouched, so
the lookup returns the (possibly updated) original value. -/
theorem lookup_map_cond {β : Type _} (l : List (Nat × β)) (id : Nat)
    (C : Nat → β → Prop) [inst : ∀ a b, Decidable (C a b)] (f : β → β) :
    (l.map fun p => if C p.1 p.2 then (p.1, f p.2) else p).lookup id
      = (l.lookup id).map fun b => if C id b then f b else b := by
  induction l with
  | nil => rfl
  | cons p t ih =>
    obtain ⟨k, v⟩ := p
    simp only [List.map_cons]
    by_cases hkid : id = k
    · subst hkid
      by_cases hc : C id v
      · rw [if_pos hc]
        simp [List.lookup, hc]
      · rw [if_neg hc]
        simp [List.lookup, hc]
    · have hbeq : (id == k) = false := by simp [hkid]
      by_cases hc : C k v
      · rw [if_pos hc]
        simp [List.lookup, hbeq, ih]
      · rw [if_neg hc]
        simp [List.lookup, hbeq, ih]

/-! ### C5 -/

theorem playSound_eq (ty : CueType) (w : World) (i : Nat)
    (hb : w.isBrowser = true) (hc : w.ctxRef = some i) :
    playSound ty w =
      { w with
        nodes := w.nodes ++
          [(w.nextId, cueOscNode (cueProfile ty) w.now (w.nextId + 1)),
           (w.nextId + 1, cueGainNode (cueProfile ty) w.now)]
        nextId := w.nextId + 2 } := by
  rw [playSound_eq_cue ty w i hb hc]
  rfl

/-- C5 (amended): the chime cue (`playSound "chime"`, profile 880 Hz =
880000 milli-hertz, peak gain 0.4 = 4000, duration 0.2 s = 200 ms, triangle
wave) creates exactly one oscillator and one gain node, wired oscillator →
gain → destination; the oscillator's stop is scheduled exactly 0.2 s (200
ms) after the context clock reading at invocation; but the gain envelope is
an *instant* `setValueAtTime` to the peak followed by the exponential decay
to the 0.0001 floor (= 1) — there is no linear ramp to peak (see the
counterexample), contrary to the original claim's "linear ramp to peak
followed by an exponential decay". -/
theorem chime_cue (w : World) (i : Nat) (hb : w.isBrowser = true)
    (hc : w.ctxRef = some i) :
    playSound .chime w =
      { w with
        nodes := w.nodes ++
          [(w.nextId, cueOscNode (cueProfile .chime) w.now (w.nextId + 1)),
           (w.nextId + 1, cueGainNode (cueProfile .chime) w.now)]
        nextId := w.nextId + 2 }
    ∧ cueProfile .chime = ⟨880000, 4000, 200, .triangle⟩
    ∧ cueOscNode (cueProfile .chime) w.now (w.nextId + 1) =
        { kind := .oscillator, oscType := .triangle,
          freqEvents := [(880000, w.now)], started := some w.now,
          stopAt := some (w.now + 200), conns := [.node (w.nextId + 1)] }
    ∧ cueGainNode (cueProfile .chime) w.now =
        { kind := .gain,
          gainEvents :=
            [.setValueAtTime 4000 w.now,
             .exponentialRampToValueAtTime 1 (w.now + 200)],
          conns := [.destination] } :=
  ⟨playSound_eq .chime w i hb hc, rfl, rfl, rfl⟩

theorem chime_cue_witness :
    w0.isBrowser = true ∧ w0.ctxRef = some 0
    ∧ (playSound .chime w0).nodes =
        [(1, cueOscNode (cueProfile .chime) 0 2),
         (2, cueGainNode (cueProfile .chime) 0)] :=
  ⟨by decide, by decide, by
    rw [(chime_cue w0 0 (by decide) (by decide)).1]
    decide⟩

/-- The world right after playing the chime cue. -/
def c5world : World := playSound .chime w0

/-- C5 counterexample: in the world produced by playing the chime on a fresh
context, exactly one gain node exists and its scheduled gain events contain
*no* `linearRampToValueAtTime` at all (the envelope starts with an instant
`setValueAtTime` to the 0.4 peak, i.e. 4000 gain units).  The claim's
"linear ramp to peak followed by an exponential decay" is therefore false
for the chime cue. -/
theorem chime_envelope_not_linear :
    ((c5world.nodes.filter fun p => decide (p.2.kind = .gain)).length = 1)
    ∧ ((c5world.nodes.filter fun p => decide (p.2.kind = .gain)).all
        fun p => !p.2.gainEvents.any (·.isLinearRamp)) = true
    ∧ ((c5world.nodes.filter fun p => decide (p.2.kind = .gain)).all
        fun p =>
          decide (p.2.gainEvents.head? =
            some (.setValueAtTime 4000 0))) = true := by decide

/-! ### C8 -/

/-- C8: playing a one-shot cue while a soundscape is active changes neither
the soundscape record (its node-id list and timer handle included) nor any
of the record's nodes, nor any timer: cues only append fresh nodes. -/
theorem cue_preserves_soundscape (w : World) (ty : CueType) (m : MusicNodes)
    (hm : w.music = some m) :
    (playSound ty w).music = some m
    ∧ (playSound ty w).timers = w.timers
    ∧ ∀ id ∈ m.nodeIds, ∀ n, w.nodes.lookup id = some n →
        (playSound ty w).nodes.lookup id = some n := by
  unfold playSound
  cases hgac : getAudioContext w with
  | mk o w1 =>
    have hmu : w1.music = w.music := by rw [← gac_snd_music w, hgac]
    have hti : w1.timers = w.timers := by rw [← gac_snd_timers w, hgac]
    have hno : w1.nodes = w.nodes := by rw [← gac_snd_nodes w, hgac]
    cases o
    · exact ⟨hmu.trans hm, hti, fun id _ n hn => hno ▸ hn⟩
    · refine ⟨hmu.trans hm, hti, fun id _ n hn => ?_⟩
      exact lookup_append_some w1.nodes _ id n (hno ▸ hn)

theorem cue_preserves_soundscape_witness :
    wActive.music = some ⟨.AmbientHum, [1, 2, 3], none⟩
    ∧ wActive.nodes.lookup 2 = some
        { kind := .oscillator, freqEvents := [(80000, 0)],
          started := some 0, conns := [.node 1] }
    ∧ (playSound .inhale wActive).nodes.lookup 2 = some
        { kind := .oscillator, freqEvents := [(80000, 0)],
          started := some 0, conns := [.node 1] } :=
  ⟨by decide, by decide,
   (cue_preserves_soundscape wActive .inhale ⟨.AmbientHum, [1, 2, 3], none⟩
      (by decide)).2.2 2 (by decide) _ (by decide)⟩

/-! ### C9: the context instance survives every operation -/

theorem start_ctxRef (mt : BackgroundMusicType) (c : Nat → Bool)
    (f b d : Bool) (w : World) (i : Nat) (hc : w.ctxRef = some i) :
    (startBackgroundMusic mt c f b d w).ctxRef = some i := by
  cases hbr : w.isBrowser
  · rw [start_eq_nobrowser mt c f b d w hbr]
    exact hc
  · rw [start_eq_entry mt c f b d w i hbr hc, startEntry_ctxRef]
    exact hc

theorem start_isBrowser (mt : BackgroundMusicType) (c : Nat → Bool)
    (f b d : Bool) (w : World) :
    (startBackgroundMusic mt c f b d w).isBrowser = w.isBrowser := by
  unfold startBackgroundMusic
  cases hgac : getAudioContext w with
  | mk o w1 =>
    have hw1 : w1.isBrowser = w.isBrowser := by
      rw [← gac_snd_isBrowser w, hgac]
    cases o
    · exact hw1
    · exact (startEntry_isBrowser mt c f b d w1).trans hw1

theorem stop_ctxRef_pres (w : World) (i : Nat) (hc : w.ctxRef = some i) :
    (stopBackgroundMusic w).ctxRef = some i := by
  cases hbr : w.isBrowser
  · rw [stop_eq_nobrowser w hbr]
    exact hc
  · cases hmm : w.music with
    | none =>
      rw [stop_eq_idle w i hbr hc hmm]
      exact hc
    | some m =>
      rw [stop_eq_teardown w m i hbr hc hmm, stopTeardown_ctxRef]
      exact hc

theorem playSound_ctxRef (ty : CueType) (w : World) (i : Nat)
    (hc : w.ctxRef = some i) : (playSound ty w).ctxRef = some i := by
  cases hbr : w.isBrowser
  · rw [playSound_eq_nobrowser ty w hbr]
    exact hc
  · rw [playSound_eq_cue ty w i hbr hc]
    exact hc

theorem playSound_isBrowser (ty : CueType) (w : World) :
    (playSound ty w).isBrowser = w.isBrowser := by
  unfold playSound
  cases hgac : getAudioContext w with
  | mk o w1 =>
    have hw1 : w1.isBrowser = w.isBrowser := by
      rw [← gac_snd_isBrowser w, hgac]
    cases o
    · exact hw1
    · exact hw1

theorem runTimerCb_ctxRef (cb : TimerCb) (w : World) :
    (runTimerCb cb w).ctxRef = w.ctxRef := by
  cases cb <;>
    simp [runTimerCb, pushToMusicIfOwner_ctxRef, playBowlStrike_ctxRef,
      playBellStrike_snd_ctxRef, addTimer_snd_ctxRef]

theorem runTimerCb_isBrowser (cb : TimerCb) (w : World) :
    (runTimerCb cb w).isBrowser = w.isBrowser := by
  cases cb <;>
    simp [runTimerCb, pushToMusicIfOwner_isBrowser, playBowlStrike_isBrowser,
      playBellStrike_snd_isBrowser, addTimer_snd_isBrowser]

theorem fireTimer_ctxRef (j : Nat) (w : World) :
    (fireTimer j w).ctxRef = w.ctxRef := by
  unfold fireTimer
  cases w.timers.lookup j with
  | none => rfl
  | some t =>
    dsimp only
    split
    · rfl
    · simp only [runTimerCb_ctxRef]

theorem fireTimer_isBrowser (j : Nat) (w : World) :
    (fireTimer j w).isBrowser = w.isBrowser := by
  unfold fireTimer
  cases w.timers.lookup j with
  | none => rfl
  | some t =>
    dsimp only
    split
    · rfl
    · simp only [runTimerCb_isBrowser]

theorem gac_snd_of_some (w : World) (i : Nat) (hc : w.ctxRef = some i) :
    (getAudioContext w).2 = w := by
  rw [gac_eq_of_some w i hc]

theorem applyOp_ctxRef (o : Op) (w : World) (i : Nat)
    (hc : w.ctxRef = some i) : (applyOp o w).ctxRef = some i := by
  cases o with
  | startOp mt c f b d => exact start_ctxRef mt c f b d w i hc
  | stopOp => exact stop_ctxRef_pres w i hc
  | cueOp ty => exact playSound_ctxRef ty w i hc
  | getCtxOp =>
    show (getAudioContext w).2.ctxRef = some i
    rw [gac_snd_of_some w i hc]
    exact hc
  | fireOp j => rw [applyOp, fireTimer_ctxRef]; exact hc
  | elapseOp dt => exact hc

theorem applyOp_isBrowser (o : Op) (w : World) :
    (applyOp o w).isBrowser = w.isBrowser := by
  cases o with
  | startOp mt c f b d => exact start_isBrowser mt c f b d w
  | stopOp => exact stop_isBrowser w
  | cueOp ty => exact playSound_isBrowser ty w
  | getCtxOp => exact gac_snd_isBrowser w
  | fireOp j => exact fireTimer_isBrowser j w
  | elapseOp dt => rfl

theorem run_ctxRef (ops : List Op) (w : World) (i : Nat)
    (hc : w.ctxRef = some i) : (run ops w).ctxRef = some i := by
  induction ops generalizing w with
  | nil => exact hc
  | cons o t ih => exact ih (applyOp o w) (applyOp_ctxRef o w i hc)

theorem run_isBrowser (ops : List Op) (w : World) :
    (run ops w).isBrowser = w.isBrowser := by
  induction ops generalizing w with
  | nil => rfl
  | cons o t ih => exact (ih (applyOp o w)).trans (applyOp_isBrowser o w)

/-- C9: `getAudioContext` is idempotent.  Once a call has constructed the
context (instance id `i` stored in the ref), every later call — after any
interleaving of engine operations — returns the very same instance, because
no operation ever overwrites the ref; and a call returns the failure signal
`null` only when the platform provides no audio capability (not a browser,
or the Web Audio constructor fails). -/
theorem getContext_idempotent (w : World) (i : Nat) (hb : w.isBrowser = true)
    (hc : w.ctxRef = some i) (ops : List Op) :
    (getAudioContext w).1 = some i
    ∧ (run ops w).ctxRef = some i
    ∧ (getAudioContext (run ops w)).1 = some i
    ∧ ∀ u : World, (getAudioContext u).1 = none →
        (u.isBrowser && u.webAudioOk) = false := by
  refine ⟨?_, run_ctxRef ops w i hc, ?_, ?_⟩
  · rw [gac_eq_browser_some w i hb hc]
  · rw [gac_eq_browser_some (run ops w) i ((run_isBrowser ops w).trans hb)
      (run_ctxRef ops w i hc)]
  · intro u hu
    by_cases hub : u.isBrowser = true
    · cases huc : u.ctxRef with
      | some k =>
        rw [gac_eq_browser_some u k hub huc] at hu
        simp at hu
      | none =>
        by_cases huw : u.webAudioOk = true
        · rw [gac_eq_create u hub huw huc] at hu
          simp at hu
        · simp only [Bool.not_eq_true] at huw
          simp [huw]
    · simp only [Bool.not_eq_true] at hub
      simp [hub]

theorem getContext_idempotent_witness :
    w0.isBrowser = true ∧ w0.ctxRef = some 0
    ∧ (getAudioContext w0).1 = some 0
    ∧ (run [.cueOp .chime, .stopOp, .elapseOp 500] w0).ctxRef = some 0 :=
  ⟨by decide, by decide,
   (getContext_idempotent w0 0 (by decide) (by decide)
      [.cueOp .chime, .stopOp, .elapseOp 500]).1,
   (getContext_idempotent w0 0 (by decide) (by decide)
      [.cueOp .chime, .stopOp, .elapseOp 500]).2.1⟩

/-! ### C4 and C10: what the teardown does to nodes and timers -/

theorem applyStopCall_gainEvents (t now : ℤ) (n : ANode) :
    (applyStopCall t now n).gainEvents = n.gainEvents := by
  unfold applyStopCall
  repeat' split
  all_goals rfl

theorem applyStopCall_disconnected (t now : ℤ) (n : ANode) :
    (applyStopCall t now n).disconnected = n.disconnected := by
  unfold applyStopCall
  repeat' split
  all_goals rfl

theorem applyStopCall_stopAt (t now : ℤ) (n : ANode)
    (h : (applyStopCall t now n).stopAt ≠ n.stopAt) :
    (applyStopCall t now n).stopAt = some t := by
  unfold applyStopCall at h ⊢
  by_cases hst : n.started.isSome = true
  · rw [if_pos hst] at h ⊢
    cases hs : n.stopAt with
    | none =>
      simp only [hs]
    | some t0 =>
      simp only [hs] at h ⊢
      by_cases hle : t0 ≤ now
      · rw [if_pos hle] at h
        exact absurd hs h
      · rw [if_neg hle]
  · rw [if_neg hst] at h
    exact absurd rfl h

theorem lookup_map_cond_some {β : Type _} (l : List (Nat × β)) (id : Nat)
    (C : Nat → β → Prop) [inst : ∀ a b, Decidable (C a b)] (f : β → β)
    (b : β) (h : l.lookup id = some b) :
    (l.map fun p => if C p.1 p.2 then (p.1, f p.2) else p).lookup id
      = some (if C id b then f b else b) := by
  rw [lookup_map_cond l id C f, h]
  rfl

/-- The fade-out ramp `stopTeardown` appends on the master gain's param. -/
def rampZeroAt (t : ℤ) (n : ANode) : ANode :=
  { n with gainEvents := n.gainEvents ++ [.linearRampToValueAtTime 0 t] }

/-- The node store after `stopTeardown` when the record has a head (the
master gain): first the fade-out ramp lands on the head node, then every
stoppable record node gets the `stop(fadeOutTime)` call. -/
theorem stopTeardown_nodes_head (m : MusicNodes) (w1 : World) (mgId : Nat)
    (hh : m.nodeIds.head? = some mgId) :
    (stopTeardown m w1).nodes =
      (w1.nodes.map fun p =>
        if p.1 = mgId then (p.1, rampZeroAt (w1.now + 2000) p.2) else p).map
        fun p =>
          if p.1 ∈ m.nodeIds ∧ p.2.kind.hasStop = true then
            (p.1, applyStopCall (w1.now + 2000) w1.now p.2)
          else p := by
  unfold stopTeardown
  rw [hh]
  cases m.intervalId <;> rfl

/-- Degenerate variant: a record with an empty node list (never produced by
the code, but allowed by the state type) skips the ramp. -/
theorem stopTeardown_nodes_nohead (m : MusicNodes) (w1 : World)
    (hh : m.nodeIds.head? = none) :
    (stopTeardown m w1).nodes =
      w1.nodes.map fun p =>
        if p.1 ∈ m.nodeIds ∧ p.2.kind.hasStop = true then
          (p.1, applyStopCall (w1.now + 2000) w1.now p.2)
        else p := by
  unfold stopTeardown
  rw [hh]
  cases m.intervalId <;> rfl

theorem rampZeroAt_stopAt (t : ℤ) (n : ANode) :
    (rampZeroAt t n).stopAt = n.stopAt := rfl

theorem rampZeroAt_disconnected (t : ℤ) (n : ANode) :
    (rampZeroAt t n).disconnected = n.disconnected := rfl

theorem rampZeroAt_gainEvents (t : ℤ) (n : ANode) :
    (rampZeroAt t n).gainEvents =
      n.gainEvents ++ [.linearRampToValueAtTime 0 t] := rfl

theorem stopTeardown_timers (m : MusicNodes) (w1 : World) :
    (stopTeardown m w1).timers =
      (match m.intervalId with
        | some j => clearHandle j w1.timers
        | none => w1.timers)
        ++ [(w1.nextId, stopDisconnectTimer w1.now m.nodeIds)] := by
  unfold stopTeardown
  cases hh : m.nodeIds.head? <;> cases hj : m.intervalId <;>
    simp [rampGain, updNode, clearTimer, addTimer]

theorem buildHum_music_promote (mt : BackgroundMusicType) (c : Nat → Bool)
    (mgId : Nat) (now : ℤ) (w2 : World) (h : c 1 = false) :
    (buildHum mt c mgId now w2).music.isSome = true := by
  unfold buildHum
  simp [finishStart_music_of_promote _ _ _ _ _ _ h]

theorem buildBowl_music_promote (mt : BackgroundMusicType) (c : Nat → Bool)
    (mgId : Nat) (now : ℤ) (w2 : World) (h : c 1 = false) :
    (buildBowl mt c mgId now w2).music.isSome = true := by
  unfold buildBowl
  simp [finishStart_music_of_promote _ _ _ _ _ _ h]

theorem buildBell_music_promote (mt : BackgroundMusicType) (c : Nat → Bool)
    (mgId : Nat) (now : ℤ) (w2 : World) (h : c 1 = false) :
    (buildBell mt c mgId now w2).music.isSome = true := by
  unfold buildBell
  simp [finishStart_music_of_promote _ _ _ _ _ _ h]

/-- C4: fade-then-kill ordering.  When `stopBackgroundMusic` tears a
soundscape down at clock time `now`, the master gain (position 0 of the
record) gets exactly one new gain event — a linear ramp to 0 at
`now + 2000` ms, the instant the fade-out reaches zero — and every node
stop that the teardown (re)schedules (i.e. every record node whose
scheduled stop time changed during the call) is scheduled at that same
instant, hence never earlier than the fade-zero timestamp. -/
theorem fade_then_kill (w : World) (m : MusicNodes) (i mgId : Nat)
    (hb : w.isBrowser = true) (hc : w.ctxRef = some i)
    (hm : w.music = some m) (hhead : m.nodeIds.head? = some mgId) :
    ∃ fadeZeroT, fadeZeroT = w.now + 2000
    ∧ (∀ g, w.nodes.lookup mgId = some g →
        ∃ g', (stopBackgroundMusic w).nodes.lookup mgId = some g'
          ∧ g'.gainEvents =
              g.gainEvents ++ [.linearRampToValueAtTime 0 fadeZeroT])
    ∧ (∀ id ∈ m.nodeIds, ∀ n n',
        w.nodes.lookup id = some n →
        (stopBackgroundMusic w).nodes.lookup id = some n' →
        n'.stopAt ≠ n.stopAt →
        ∃ ts, n'.stopAt = some ts ∧ fadeZeroT ≤ ts) := by
  refine ⟨w.now + 2000, rfl, ?_, ?_⟩
  · intro g hg
    rw [stop_eq_teardown w m i hb hc hm,
      stopTeardown_nodes_head m w mgId hhead]
    have h1 : (w.nodes.map fun p =>
        if p.1 = mgId then (p.1, rampZeroAt (w.now + 2000) p.2)
        else p).lookup mgId
        = some (if mgId = mgId then rampZeroAt (w.now + 2000) g else g) :=
      lookup_map_cond_some w.nodes mgId (fun a _ => a = mgId)
        (rampZeroAt (w.now + 2000)) g hg
    rw [if_pos rfl] at h1
    have h2 : ((w.nodes.map fun p =>
        if p.1 = mgId then (p.1, rampZeroAt (w.now + 2000) p.2)
        else p).map fun p =>
          if p.1 ∈ m.nodeIds ∧ p.2.kind.hasStop = true then
            (p.1, applyStopCall (w.now + 2000) w.now p.2)
          else p).lookup mgId
        = some (if mgId ∈ m.nodeIds
              ∧ (rampZeroAt (w.now + 2000) g).kind.hasStop = true
            then applyStopCall (w.now + 2000) w.now
              (rampZeroAt (w.now + 2000) g)
            else rampZeroAt (w.now + 2000) g) :=
      lookup_map_cond_some _ mgId
        (fun a b => a ∈ m.nodeIds ∧ b.kind.hasStop = true)
        (applyStopCall (w.now + 2000) w.now) _ h1
    rw [h2]
    refine ⟨_, rfl, ?_⟩
    by_cases hcst : mgId ∈ m.nodeIds
        ∧ (rampZeroAt (w.now + 2000) g).kind.hasStop = true
    · rw [if_pos hcst, applyStopCall_gainEvents, rampZeroAt_gainEvents]
    · rw [if_neg hcst, rampZeroAt_gainEvents]
  · intro id hid n n' hn hn' hne
    rw [stop_eq_teardown w m i hb hc hm,
      stopTeardown_nodes_head m w mgId hhead] at hn'
    have h1 : (w.nodes.map fun p =>
        if p.1 = mgId then (p.1, rampZeroAt (w.now + 2000) p.2)
        else p).lookup id
        = some (if id = mgId then rampZeroAt (w.now + 2000) n else n) :=
      lookup_map_cond_some w.nodes id (fun a _ => a = mgId)
        (rampZeroAt (w.now + 2000)) n hn
    set nr : ANode := if id = mgId then rampZeroAt (w.now + 2000) n else n
      with hnrdef
    have h2 : ((w.nodes.map fun p =>
        if p.1 = mgId then (p.1, rampZeroAt (w.now + 2000) p.2)
        else p).map fun p =>
          if p.1 ∈ m.nodeIds ∧ p.2.kind.hasStop = true then
            (p.1, applyStopCall (w.now + 2000) w.now p.2)
          else p).lookup id
        = some (if id ∈ m.nodeIds ∧ nr.kind.hasStop = true
            then applyStopCall (w.now + 2000) w.now nr else nr) :=
      lookup_map_cond_some _ id
        (fun a b => a ∈ m.nodeIds ∧ b.kind.hasStop = true)
        (applyStopCall (w.now + 2000) w.now) _ h1
    rw [h2] at hn'
    have hnrStop : nr.stopAt = n.stopAt := by
      rw [hnrdef]
      split <;> rfl
    by_cases hcst : id ∈ m.nodeIds ∧ nr.kind.hasStop = true
    · rw [if_pos hcst] at hn'
      have hn2 : n' = applyStopCall (w.now + 2000) w.now nr :=
        (Option.some_injective _ hn').symm
      subst hn2
      refine ⟨w.now + 2000, ?_, le_refl _⟩
      apply applyStopCall_stopAt
      rw [hnrStop]
      exact hne
    · rw [if_neg hcst] at hn'
      have hn2 : n' = nr := (Option.some_injective _ hn').symm
      subst hn2
      exact absurd hnrStop hne

theorem fade_then_kill_witness :
    wActive.music = some ⟨.AmbientHum, [1, 2, 3], none⟩
    ∧ (∃ fadeZeroT, fadeZeroT = wActive.now + 2000
      ∧ (∀ g, wActive.nodes.lookup 1 = some g →
          ∃ g', (stopBackgroundMusic wActive).nodes.lookup 1 = some g'
            ∧ g'.gainEvents =
                g.gainEvents ++ [.linearRampToValueAtTime 0 fadeZeroT])
      ∧ (∀ id ∈ ([1, 2, 3] : List Nat), ∀ n n',
          wActive.nodes.lookup id = some n →
          (stopBackgroundMusic wActive).nodes.lookup id = some n' →
          n'.stopAt ≠ n.stopAt →
          ∃ ts, n'.stopAt = some ts ∧ fadeZeroT ≤ ts)) :=
  ⟨by decide,
   fade_then_kill wActive ⟨.AmbientHum, [1, 2, 3], none⟩ 0 1
     (by decide) (by decide) (by decide) (by decide)⟩

/-- C10: `stopBackgroundMusic` nulls the record synchronously before
returning — so the scheduler reports Idle immediately — while the
disconnects are only performed by the 2000 ms timeout it registers: no node
is disconnected by the call itself, and a `startBackgroundMusic` issued
right after the stop (during the ongoing fade-out) passes the
already-active guard and promotes a new record (shown for every
non-`Off` synthesized kind under a never-cancelling predicate). -/
theorem stop_defers_disconnect (w : World) (m : MusicNodes) (i : Nat)
    (hb : w.isBrowser = true) (hc : w.ctxRef = some i)
    (hm : w.music = some m) :
    (stopBackgroundMusic w).music = none
    ∧ (stopBackgroundMusic w).timers =
        (match m.intervalId with
          | some j => clearHandle j w.timers
          | none => w.timers)
          ++ [(w.nextId, stopDisconnectTimer w.now m.nodeIds)]
    ∧ (∀ id n n', w.nodes.lookup id = some n →
        (stopBackgroundMusic w).nodes.lookup id = some n' →
        n'.disconnected = n.disconnected)
    ∧ (∀ mt : BackgroundMusicType, ∀ c : Nat → Bool, mt ≠ .Off →
        (∀ k, c k = false) → isSample mt = false → ∀ f b d : Bool,
        (startBackgroundMusic mt c f b d
            (stopBackgroundMusic w)).music.isSome = true) := by
  rw [stop_eq_teardown w m i hb hc hm]
  refine ⟨stopTeardown_music m w, stopTeardown_timers m w, ?_, ?_⟩
  · intro id n n' hn hn'
    cases hh2 : m.nodeIds.head? with
    | none =>
      rw [stopTeardown_nodes_nohead m w hh2] at hn'
      have h2 : (w.nodes.map fun p =>
          if p.1 ∈ m.nodeIds ∧ p.2.kind.hasStop = true then
            (p.1, applyStopCall (w.now + 2000) w.now p.2)
          else p).lookup id
          = some (if id ∈ m.nodeIds ∧ n.kind.hasStop = true
              then applyStopCall (w.now + 2000) w.now n else n) :=
        lookup_map_cond_some w.nodes id
          (fun a b => a ∈ m.nodeIds ∧ b.kind.hasStop = true)
          (applyStopCall (w.now + 2000) w.now) n hn
      rw [h2] at hn'
      have hn2 := (Option.some_injective _ hn').symm
      subst hn2
      by_cases hcst : id ∈ m.nodeIds ∧ n.kind.hasStop = true
      · rw [if_pos hcst, applyStopCall_disconnected]
      · rw [if_neg hcst]
    | some mgId2 =>
      rw [stopTeardown_nodes_head m w mgId2 hh2] at hn'
      have h1 : (w.nodes.map fun p =>
          if p.1 = mgId2 then (p.1, rampZeroAt (w.now + 2000) p.2)
          else p).lookup id
          = some (if id = mgId2 then rampZeroAt (w.now + 2000) n else n) :=
        lookup_map_cond_some w.nodes id (fun a _ => a = mgId2)
          (rampZeroAt (w.now + 2000)) n hn
      set nr : ANode := if id = mgId2 then rampZeroAt (w.now + 2000) n
        else n with hnrdef
      have h2 : ((w.nodes.map fun p =>
          if p.1 = mgId2 then (p.1, rampZeroAt (w.now + 2000) p.2)
          else p).map fun p =>
            if p.1 ∈ m.nodeIds ∧ p.2.kind.hasStop = true then
              (p.1, applyStopCall (w.now + 2000) w.now p.2)
            else p).lookup id
          = some (if id ∈ m.nodeIds ∧ nr.kind.hasStop = true
              then applyStopCall (w.now + 2000) w.now nr else nr) :=
        lookup_map_cond_some _ id
          (fun a b => a ∈ m.nodeIds ∧ b.kind.hasStop = true)
          (applyStopCall (w.now + 2000) w.now) _ h1
      rw [h2] at hn'
      have hn2 := (Option.some_injective _ hn').symm
      subst hn2
      have hnrD : nr.disconnected = n.disconnected := by
        rw [hnrdef]
        split <;> rfl
      by_cases hcst : id ∈ m.nodeIds ∧ nr.kind.hasStop = true
      · rw [if_pos hcst, applyStopCall_disconnected, hnrD]
      · rw [if_neg hcst, hnrD]
  · intro mt c hOff hcnever hs f b d
    have hb' : (stopTeardown m w).isBrowser = true :=
      (stopTeardown_isBrowser m w).trans hb
    have hc' : (stopTeardown m w).ctxRef = some i :=
      (stopTeardown_ctxRef m w).trans hc
    rw [start_eq_entry mt c f b d (stopTeardown m w) i hb' hc']
    unfold startEntry
    have hguard : ((stopTeardown m w).music.isSome
        || (mt == .Off) || c 0) = false := by
      simp [stopTeardown_music, hcnever, hOff]
    rw [if_neg (by simp [hguard])]
    unfold startBuild
    cases mt with
    | Off => exact absurd rfl hOff
    | AmbientHum => exact buildHum_music_promote _ c _ _ _ (hcnever 1)
    | TibetanSingingBowl => exact buildBowl_music_promote _ c _ _ _ (hcnever 1)
    | BreathingBell => exact buildBell_music_promote _ c _ _ _ (hcnever 1)
    | GentleRain => simp [isSample] at hs
    | OmChant => simp [isSample] at hs

theorem stop_defers_disconnect_witness :
    wActive.music = some ⟨.AmbientHum, [1, 2, 3], none⟩
    ∧ (stopBackgroundMusic wActive).music = none
    ∧ (startBackgroundMusic .BreathingBell cNever true true true
        (stopBackgroundMusic wActive)).music.isSome = true :=
  ⟨by decide,
   (stop_defers_disconnect wActive ⟨.AmbientHum, [1, 2, 3], none⟩ 0
      (by decide) (by decide) (by decide)).1,
   (stop_defers_disconnect wActive ⟨.AmbientHum, [1, 2, 3], none⟩ 0
      (by decide) (by decide) (by decide)).2.2.2 .BreathingBell cNever
      (by decide) (fun k => rfl) (by decide) true true true⟩

/-! ### C7: fetch/decode failure of a sample-backed soundscape -/

theorem isSample_ne_Off (mt : BackgroundMusicType)
    (hs : isSample mt = true) : (mt == BackgroundMusicType.Off) = false := by
  cases mt <;> simp_all [isSample]

theorem startBuild_sample (mt : BackgroundMusicType) (c : Nat → Bool)
    (f b d : Bool) (w1 : World) (hs : isSample mt = true) :
    startBuild mt c f b d w1 =
      buildSample mt c f b d w1.nextId w1.now
        { w1 with
          nodes := w1.nodes ++ [(w1.nextId, masterGainNode w1.now)]
          nextId := w1.nextId + 1 } := by
  cases mt <;> first | rfl | simp [isSample] at hs

/-- C7 (amended): for a sample-backed kind (`GentleRain`, `OmChant`), when
the fetch, the body read, or the decode fails (and the start was not already
cancelled at entry or at an earlier checkpoint), `startBackgroundMusic`
returns normally — no exception reaches the caller, as the call is a total
function into a new state — with the soundscape still Idle (no record
promoted, no source node created, no timer touched) and exactly one
`loadError` logged when the `isCancelled()` probe in the `catch` is false,
and nothing logged when it is true; **but**, contrary to the original
claim's "no partial graph is retained", the already-created master gain
node stays behind, still connected to the destination (see the
counterexample): the end state is exactly the input state plus that one
connected master-gain node (plus the conditional log line). -/
theorem load_failure_handling (w w2 : World) (i : Nat)
    (hb : w.isBrowser = true) (hc : w.ctxRef = some i) (hm : w.music = none)
    (mt : BackgroundMusicType) (hs : isSample mt = true)
    (cancel : Nat → Bool) (h0 : cancel 0 = false) (f b d : Bool)
    (hw2 : w2 = { w with
        nodes := w.nodes ++ [(w.nextId, masterGainNode w.now)]
        nextId := w.nextId + 1 }) :
    (f = false →
      startBackgroundMusic mt cancel f b d w =
        if cancel 1 then w2 else { w2 with log := w2.log ++ [.loadError] })
    ∧ (f = true → cancel 1 = false → b = false →
      startBackgroundMusic mt cancel f b d w =
        if cancel 2 then w2 else { w2 with log := w2.log ++ [.loadError] })
    ∧ (f = true → cancel 1 = false → b = true → cancel 2 = false →
        d = false →
      startBackgroundMusic mt cancel f b d w =
        if cancel 3 then w2 else { w2 with log := w2.log ++ [.loadError] }) := by
  subst hw2
  rw [start_eq_entry mt cancel f b d w i hb hc]
  unfold startEntry
  rw [if_neg (by simp [hm, h0, isSample_ne_Off mt hs])]
  rw [startBuild_sample mt cancel f b d w hs]
  unfold buildSample
  refine ⟨?_, ?_, ?_⟩
  · intro hf
    subst hf
    cases hc1 : cancel 1 <;> simp [hc1]
  · intro hf hc1 hbuf
    subst hf
    subst hbuf
    cases hc2 : cancel 2 <;> simp [hc1, hc2]
  · intro hf hc1 hbuf hc2 hd
    subst hf
    subst hbuf
    subst hd
    cases hc3 : cancel 3 <;> simp [hc1, hc2, hc3]

theorem load_failure_handling_witness :
    w0.isBrowser = true ∧ w0.music = none ∧ isSample .GentleRain = true
    ∧ (false = false →
      startBackgroundMusic .GentleRain cNever false true true w0 =
        if cNever 1 then
          { w0 with
            nodes := w0.nodes ++ [(w0.nextId, masterGainNode w0.now)]
            nextId := w0.nextId + 1 }
        else
          { { w0 with
              nodes := w0.nodes ++ [(w0.nextId, masterGainNode w0.now)]
              nextId := w0.nextId + 1 } with
            log := { w0 with
              nodes := w0.nodes ++ [(w0.nextId, masterGainNode w0.now)]
              nextId := w0.nextId + 1 }.log ++ [.loadError] }) :=
  ⟨by decide, by decide, by decide,
   (load_failure_handling w0
      { w0 with
        nodes := w0.nodes ++ [(w0.nextId, masterGainNode w0.now)]
        nextId := w0.nextId + 1 } 0 (by decide) (by decide) (by decide)
      .GentleRain (by decide) cNever (by decide) false true true rfl).1⟩

/-! ### C6: the BreathingBell timer survives stopBackgroundMusic -/

/-- Discriminator for the `scheduleNextBell` self-rescheduling timeout. -/
def TimerCb.isBellStep : TimerCb → Bool
  | .bellStep _ _ => true
  | _ => false

/-- Start `BreathingBell`, let the first rescheduled bell timeout fire at
7 s (which reschedules itself again), then stop. -/
def traceBell : List Op :=
  [.getCtxOp, .startOp .BreathingBell cNever true true true,
   .elapseOp 7000, .fireOp 4, .stopOp]

/-- C6 FAILS on this input (code bug, admitted by the source's own NOTE
comment at useAudio.ts:397-399): `stopBackgroundMusic` clears only the
handle stored in `intervalId`, but for `BreathingBell` that is the FIRST
`setTimeout` handle, while `scheduleNextBell` keeps re-registering NEW
timeout handles that are never stored.  After start → first bell fires at
7 s → stop, the world is Idle, yet exactly one live (uncleared, unfired)
`bellStep` timeout remains, and letting it fire after the stop creates two
fresh audio nodes — a timer belonging to the stopped soundscape fires
again, contradicting the claim. -/
theorem bell_timer_survives_stop :
    (run traceBell initWorld).music = none
    ∧ ((run traceBell initWorld).timers.filter fun p =>
        decide (p.2.cleared = false ∧ p.2.fired = false)
          && p.2.cb.isBellStep).length = 1
    ∧ (run (traceBell ++ [.elapseOp 8000, .fireOp 7]) initWorld).nodes.length
        = (run traceBell initWorld).nodes.length + 2 := by decide

/-- The world after a `GentleRain` start whose fetch failed (no
cancellation). -/
def c7world : World :=
  startBackgroundMusic .GentleRain cNever false true true w0

/-- C7 counterexample: after an uncancelled fetch failure the soundscape is
Idle and the error is logged, but the already-created master gain — the
partial graph — is retained: exactly one node exists, it is not
disconnected, and it is still connected to the destination.  This refutes
the claim's "no partial graph is retained". -/
theorem load_failure_retains_master_gain :
    c7world.music = none
    ∧ c7world.log = [.loadError]
    ∧ c7world.nodes.length = 1
    ∧ (c7world.nodes.filter fun p =>
        decide (p.2.disconnected = false
          ∧ Conn.destination ∈ p.2.conns)).length = 1 := by decide

/-! ### C1: cancellation during startBackgroundMusic -/

/-- Every node beyond the first `base` (the ones a call created) is
disconnected. -/
def cleanedFrom (base : Nat) (w' : World) : Prop :=
  ∀ p ∈ w'.nodes.drop base, p.2.disconnected = true

theorem cancelCleanupNode_disconnected (now : ℤ) (n : ANode) :
    (cancelCleanupNode now n).disconnected = true := rfl

theorem takeRand_nodes (w : World) : (takeRand w).2.nodes = w.nodes := by
  unfold takeRand
  cases w.rands <;> rfl

theorem finishStart_eq_cancel (mt : BackgroundMusicType) (c : Nat → Bool)
    (k : Nat) (ids : List Nat) (iv : Option Nat) (w : World)
    (h : c k = true) :
    finishStart mt c k ids iv w = forceStopDisconnect w.now ids w := by
  unfold finishStart
  rw [h]
  rfl

theorem drop_len_append {α β : Type _} (N : List α) (g : α → β)
    (S : List β) : ((N.map g) ++ S).drop N.length = S := by
  have h : (N.map g).length = N.length := List.length_map N g
  rw [← h, List.drop_left]

theorem forceStopDisconnect_cleaned (now : ℤ) (ids : List Nat) (w : World)
    (base : Nat) (hkeys : ∀ p ∈ w.nodes.drop base, p.1 ∈ ids) :
    cleanedFrom base (forceStopDisconnect now ids w) := by
  intro p hp
  unfold forceStopDisconnect at hp
  dsimp only at hp
  rw [← List.map_drop] at hp
  obtain ⟨q, hq, hpq⟩ := List.mem_map.mp hp
  have hk := hkeys q hq
  rw [if_pos hk] at hpq
  subst hpq
  exact cancelCleanupNode_disconnected now q.2

theorem buildHum_music_cancel (mt : BackgroundMusicType) (c : Nat → Bool)
    (mgId : Nat) (now : ℤ) (w2 : World) (h : c 1 = true) :
    (buildHum mt c mgId now w2).music = w2.music := by
  unfold buildHum
  dsimp only
  rw [finishStart_music_of_cancel _ _ _ _ _ _ h]
  rfl

theorem buildHum_cleaned (mt : BackgroundMusicType) (c : Nat → Bool)
    (mgId : Nat) (now : ℤ) (w2 : World) (N : List (Nat × ANode))
    (hW : w2.nodes = N ++ [(mgId, masterGainNode now)])
    (h : c 1 = true) :
    cleanedFrom N.length (buildHum mt c mgId now w2) := by
  unfold buildHum
  dsimp only
  rw [finishStart_eq_cancel _ _ _ _ _ _ h]
  apply forceStopDisconnect_cleaned
  intro p hp
  dsimp only [rampGain, updNode] at hp
  rw [hW, List.map_append, List.append_assoc, drop_len_append] at hp
  simp only [List.map_cons, List.map_nil, List.cons_append, List.nil_append,
    List.mem_cons, List.not_mem_nil, or_false] at hp
  rcases hp with h1 | h1 | h1 <;> subst h1 <;>
    simp [rampGain, updNode_nextId]

theorem playBowlStrike_nodes_keys (mg : Nat) (w : World) :
    ∃ S, (playBowlStrike mg w).2.nodes = w.nodes ++ S
      ∧ ∀ q ∈ S, q.1 ∈ (playBowlStrike mg w).1 := by
  unfold playBowlStrike
  dsimp only
  refine foldl_keeps
    (fun acc : List Nat × World =>
      ∃ S, acc.2.nodes = w.nodes ++ S ∧ ∀ q ∈ S, q.1 ∈ acc.1)
    (bowlStep mg (13000 + (takeRand w).1 * 2) (takeRand w).2.now)
    ?_ (bowlHarmonics.zip [0, 1, 2, 3, 4]) ([], (takeRand w).2) ?_
  · intro acc hi hP
    obtain ⟨S, hS, hk⟩ := hP
    unfold bowlStep
    dsimp only
    refine ⟨S ++ [((takeRand acc.2).2.nextId,
      { kind := .oscillator,
        freqEvents := [((13000 + (takeRand w).1 * 2) * hi.1,
          (takeRand w).2.now)],
        started := some (takeRand w).2.now,
        stopAt := some ((takeRand w).2.now
          + (8000 + (takeRand acc.2).1 * 4)),
        conns := [.node ((takeRand acc.2).2.nextId + 1)] }),
      ((takeRand acc.2).2.nextId + 1,
      { kind := .gain,
        gainEvents := [.setValueAtTime 0 (takeRand w).2.now,
          .linearRampToValueAtTime (3000 / ((hi.2 : ℤ) + 1))
            ((takeRand w).2.now + 100),
          .exponentialRampToValueAtTime 10
            ((takeRand w).2.now + (8000 + (takeRand acc.2).1 * 4))],
        conns := [.node mg] })], ?_, ?_⟩
    · rw [takeRand_nodes, hS, List.append_assoc]
    · intro q hq
      rcases List.mem_append.mp hq with hq1 | hq1
      · exact List.mem_append_left _ (hk q hq1)
      · simp only [List.mem_cons, List.not_mem_nil, or_false] at hq1
        rcases hq1 with h1 | h1 <;> subst h1 <;> simp
  · exact ⟨[], by simp [takeRand_nodes], by intro q hq; cases hq⟩

theorem buildBowl_music_cancel (mt : BackgroundMusicType) (c : Nat → Bool)
    (mgId : Nat) (now : ℤ) (w2 : World) (h : c 1 = true) :
    (buildBowl mt c mgId now w2).music = w2.music := by
  unfold buildBowl
  dsimp only
  rw [finishStart_music_of_cancel _ _ _ _ _ _ h, addTimer_snd_music,
    takeRand_music, playBowlStrike_music]
  rfl

theorem buildBowl_cleaned (mt : BackgroundMusicType) (c : Nat → Bool)
    (mgId : Nat) (now : ℤ) (w2 : World) (N : List (Nat × ANode))
    (hW : w2.nodes = N ++ [(mgId, masterGainNode now)])
    (h : c 1 = true) :
    cleanedFrom N.length (buildBowl mt c mgId now w2) := by
  unfold buildBowl
  dsimp only
  rw [finishStart_eq_cancel _ _ _ _ _ _ h]
  apply forceStopDisconnect_cleaned
  intro p hp
  rw [addTimer_snd_nodes, takeRand_nodes] at hp
  obtain ⟨S, hS, hk⟩ :=
    playBowlStrike_nodes_keys mgId (rampGain w2 mgId 3000 (now + 2000))
  rw [hS] at hp
  dsimp only [rampGain, updNode] at hp
  rw [hW, List.map_append, List.append_assoc, drop_len_append] at hp
  rcases List.mem_append.mp hp with h1 | h1
  · simp only [List.map_cons, List.map_nil, List.mem_cons,
      List.not_mem_nil, or_false] at h1
    subst h1
    simp
  · exact List.mem_cons_of_mem _ (hk p h1)

theorem buildBell_music_cancel (mt : BackgroundMusicType) (c : Nat → Bool)
    (mgId : Nat) (now : ℤ) (w2 : World) (h : c 1 = true) :
    (buildBell mt c mgId now w2).music = w2.music := by
  unfold buildBell
  dsimp only
  rw [finishStart_music_of_cancel _ _ _ _ _ _ h]
  rfl

theorem buildBell_cleaned (mt : BackgroundMusicType) (c : Nat → Bool)
    (mgId : Nat) (now : ℤ) (w2 : World) (N : List (Nat × ANode))
    (hW : w2.nodes = N ++ [(mgId, masterGainNode now)])
    (h : c 1 = true) :
    cleanedFrom N.length (buildBell mt c mgId now w2) := by
  unfold buildBell
  dsimp only
  rw [finishStart_eq_cancel _ _ _ _ _ _ h]
  apply forceStopDisconnect_cleaned
  intro p hp
  dsimp only [addTimer, playBellStrike, rampGain, updNode] at hp
  rw [hW, List.map_append, List.append_assoc, drop_len_append] at hp
  simp only [List.map_cons, List.map_nil, List.cons_append, List.nil_append,
    List.mem_cons, List.not_mem_nil, or_false] at hp
  rcases hp with h1 | h1 | h1 <;> subst h1 <;>
    simp [playBellStrike, rampGain, updNode_nextId]

theorem buildSample_timers (mt : BackgroundMusicType) (c : Nat → Bool)
    (f b d : Bool) (mgId : Nat) (now : ℤ) (w2 : World) :
    (buildSample mt c f b d mgId now w2).timers = w2.timers := by
  unfold buildSample
  repeat' split
  all_goals simp [finishStart_timers, rampGain, updNode_timers]

theorem buildSample_cancel_final (mt : BackgroundMusicType)
    (c : Nat → Bool) (mgId : Nat) (now : ℤ) (w2 : World)
    (N : List (Nat × ANode))
    (hW : w2.nodes = N ++ [(mgId, masterGainNode now)])
    (h1 : c 1 = false) (h2 : c 2 = false) (h3 : c 3 = false)
    (h4 : c 4 = true) :
    (buildSample mt c true true true mgId now w2).music = w2.music
    ∧ cleanedFrom N.length (buildSample mt c true true true mgId now w2) := by
  unfold buildSample
  simp only [h1, h2, h3, Bool.not_true, Bool.false_eq_true, if_false]
  constructor
  · rw [finishStart_music_of_cancel _ _ _ _ _ _ h4]
    rfl
  · rw [finishStart_eq_cancel _ _ _ _ _ _ h4]
    apply forceStopDisconnect_cleaned
    intro p hp
    dsimp only [rampGain, updNode] at hp
    rw [hW, List.append_assoc, List.map_append, drop_len_append] at hp
    simp only [List.map_cons, List.map_nil, List.cons_append,
      List.nil_append, List.mem_cons, List.not_mem_nil, or_false] at hp
    rcases hp with hq | hq <;> subst hq
    · simp
    · split <;> simp

/-- C1 (amended): cancellation during `startBackgroundMusic`, with the
audio context present and the scheduler Idle.  (1) Entry cancellation
(`isCancelled()` true at call 0) leaves the whole state exactly unchanged.
(2) A sample-backed start never creates or clears any timer, whatever the
cancellation predicate and load outcomes.  (3) **Leak**, contrary to the
original claim: for a sample-backed kind whose fetch succeeds and whose
first post-await `isCancelled()` probe (call 1) is true, the call returns
with the state equal to the input state plus one retained node — the
already-connected master gain — which is neither stopped nor disconnected
(the `return` skips the cleanup block).  (4) For the synthesized kinds
(non-sample, non-Off) cancelled at the final pre-promotion check, the
scheduler ends Idle (`music = none`) and every node the call created is
disconnected — but the interval/timeout timer registered by the
`TibetanSingingBowl`/`BreathingBell` branches is NOT cleared (see the
counterexample: it keeps firing).  (5) Likewise for a fully successful
sample load cancelled at the final check: Idle, and all created nodes
disconnected. -/
theorem cancel_start_amended (w w2 : World) (i : Nat)
    (hb : w.isBrowser = true) (hc : w.ctxRef = some i) (hm : w.music = none)
    (mt : BackgroundMusicType) (cancel : Nat → Bool) (f b d : Bool)
    (hw2 : w2 = { w with
        nodes := w.nodes ++ [(w.nextId, masterGainNode w.now)]
        nextId := w.nextId + 1 }) :
    (cancel 0 = true → startBackgroundMusic mt cancel f b d w = w)
    ∧ (isSample mt = true →
        (startBackgroundMusic mt cancel f b d w).timers = w.timers)
    ∧ (isSample mt = true → cancel 0 = false → f = true →
        cancel 1 = true → startBackgroundMusic mt cancel f b d w = w2)
    ∧ (isSample mt = false → (mt == .Off) = false → cancel 0 = false →
        cancel 1 = true →
        (startBackgroundMusic mt cancel f b d w).music = none
        ∧ cleanedFrom w.nodes.length
            (startBackgroundMusic mt cancel f b d w))
    ∧ (isSample mt = true → cancel 0 = false → cancel 1 = false →
        cancel 2 = false → cancel 3 = false → cancel 4 = true →
        f = true → b = true → d = true →
        (startBackgroundMusic mt cancel f b d w).music = none
        ∧ cleanedFrom w.nodes.length
            (startBackgroundMusic mt cancel f b d w)) := by
  rw [start_eq_entry mt cancel f b d w i hb hc]
  refine ⟨?_, ?_, ?_, ?_, ?_⟩
  · intro h0
    unfold startEntry
    rw [if_pos (by simp [h0])]
  · intro hs
    unfold startEntry
    split
    · rfl
    · rw [startBuild_sample mt cancel f b d w hs, buildSample_timers]
  · intro hs h0 hf h1
    subst hf
    subst hw2
    unfold startEntry
    rw [if_neg (by simp [hm, h0, isSample_ne_Off mt hs])]
    rw [startBuild_sample mt cancel true b d w hs]
    unfold buildSample
    simp [h1]
  · intro hs hOff h0 h1
    unfold startEntry
    rw [if_neg (by simp [hm, h0, hOff])]
    cases mt with
    | Off => exact absurd hOff (by decide)
    | GentleRain => exact absurd hs (by decide)
    | OmChant => exact absurd hs (by decide)
    | AmbientHum =>
      unfold startBuild
      dsimp only
      constructor
      · rw [buildHum_music_cancel _ _ _ _ _ h1]
        exact hm
      · exact buildHum_cleaned _ _ _ _ _ w.nodes rfl h1
    | TibetanSingingBowl =>
      unfold startBuild
      dsimp only
      constructor
      · rw [buildBowl_music_cancel _ _ _ _ _ h1]
        exact hm
      · exact buildBowl_cleaned _ _ _ _ _ w.nodes rfl h1
    | BreathingBell =>
      unfold startBuild
      dsimp only
      constructor
      · rw [buildBell_music_cancel _ _ _ _ _ h1]
        exact hm
      · exact buildBell_cleaned _ _ _ _ _ w.nodes rfl h1
  · intro hs h0 h1 h2 h3 h4 hf hbk hd
    subst hf
    subst hbk
    subst hd
    unfold startEntry
    rw [if_neg (by simp [hm, h0, isSample_ne_Off mt hs])]
    rw [startBuild_sample mt cancel true true true w hs]
    have hfin := buildSample_cancel_final mt cancel w.nextId w.now
      { w with
        nodes := w.nodes ++ [(w.nextId, masterGainNode w.now)]
        nextId := w.nextId + 1 }
      w.nodes rfl h1 h2 h3 h4
    exact ⟨by rw [hfin.1]; exact hm, hfin.2⟩

/-- A cancellation predicate that turns true right after the entry guard:
the `isCancelled()` call 0 returns false, every later call returns true. -/
def cAfterEntry : Nat → Bool := fun n => decide (1 ≤ n)

theorem cancel_start_amended_witness :
    w0.isBrowser = true ∧ w0.ctxRef = some 0 ∧ w0.music = none
    ∧ ((cAfterEntry 0 = true →
        startBackgroundMusic .GentleRain cAfterEntry true true true w0 = w0)
      ∧ (isSample .GentleRain = true →
        (startBackgroundMusic .GentleRain cAfterEntry true true true
          w0).timers = w0.timers)
      ∧ (isSample .GentleRain = true → cAfterEntry 0 = false →
        true = true → cAfterEntry 1 = true →
        startBackgroundMusic .GentleRain cAfterEntry true true true w0 =
          { w0 with
            nodes := w0.nodes ++ [(w0.nextId, masterGainNode w0.now)]
            nextId := w0.nextId + 1 })
      ∧ (isSample .GentleRain = false →
        (BackgroundMusicType.GentleRain == .Off) = false →
        cAfterEntry 0 = false → cAfterEntry 1 = true →
        (startBackgroundMusic .GentleRain cAfterEntry true true true
          w0).music = none
        ∧ cleanedFrom w0.nodes.length
            (startBackgroundMusic .GentleRain cAfterEntry true true true w0))
      ∧ (isSample .GentleRain = true → cAfterEntry 0 = false →
        cAfterEntry 1 = false → cAfterEntry 2 = false →
        cAfterEntry 3 = false → cAfterEntry 4 = true →
        true = true → true = true → true = true →
        (startBackgroundMusic .GentleRain cAfterEntry true true true
          w0).music = none
        ∧ cleanedFrom w0.nodes.length
            (startBackgroundMusic .GentleRain cAfterEntry true true true
              w0))) :=
  ⟨by decide, by decide, by decide,
   cancel_start_amended w0
     { w0 with
       nodes := w0.nodes ++ [(w0.nextId, masterGainNode w0.now)]
       nextId := w0.nextId + 1 } 0 (by decide) (by decide) (by decide)
     .GentleRain cAfterEntry true true true rfl⟩

/-- A `TibetanSingingBowl` start cancelled at the final pre-promotion
check (entry probe false, every later probe true). -/
def c1world : World :=
  startBackgroundMusic .TibetanSingingBowl cAfterEntry true true true w0

/-- C1 counterexample: a `TibetanSingingBowl` start cancelled at the final
pre-promotion checkpoint ends with the scheduler Idle, but the
`setInterval` strike timer registered before the checkpoint is still
uncleared — the cancellation block stops and disconnects the nodes yet
never calls `clearInterval` — and when it fires (period 12 s here) it
creates ten fresh audio nodes.  This refutes the claim's "zero retained
timers — in particular, any interval or timeout timer created before the
cancellation was detected no longer fires". -/
theorem bowl_cancel_leaks_interval :
    c1world.music = none
    ∧ (c1world.timers.filter fun p => !p.2.cleared).length = 1
    ∧ (run [.elapseOp 17000, .fireOp 12] c1world).nodes.length
        = c1world.nodes.length + 10 := by decide

end BreathingApp
